import Mathlib

/-! # deploy-info: ticket extraction, project lookup and the resolution pipeline

A shallow embedding of `deploy-info.go`.

* The regular expression `(\w*-\d{1,})` of `main` is embedded as a value of a
  small regular-expression type, run by a backtracking matcher that lists the
  possible ends of a match in the order a backtracking search tries them
  (greedy repetition first); `FindString` takes the first match at the
  leftmost position that has one, as Go's `regexp` documents.
* The four remote calls are functions over an explicit environment (what the
  remote answers, what the decoders return) and an explicit record of the
  effects of a run (what was written to standard output, which requests were
  issued).
-/

namespace DeployInfo

/-! ## Regular expressions (package `regexp`, as far as `main` uses it) -/

/-- Regular expressions: the constructors that the pattern of `main` needs. -/
inductive Regex where
  | lit (c : Char)
  | cls (p : Char → Bool)
  | cat (a b : Regex)
  | star (a : Regex)
  | plus (a : Regex)
  | group (a : Regex)

/-- Greedy iteration of a matcher `f`: first one more round of `f` (only rounds
that consume input are repeated), then stopping here. The fuel bounds the
number of rounds; the length of the input is always enough. -/
def iterate (f : List Char → List (List Char)) : Nat → List Char → List (List Char)
  | 0, s => [s]
  | n + 1, s => ((f s).filter (fun r => r.length < s.length)).flatMap (iterate f n) ++ [s]

/-- Backtracking matcher: `run re s` lists what is left of `s` after each
way of matching `re` at the start of `s`, in the order of preference of a
backtracking search. -/
def Regex.run : Regex → List Char → List (List Char)
  | .lit c, s =>
    match s with
    | [] => []
    | x :: xs => if x = c then [xs] else []
  | .cls p, s =>
    match s with
    | [] => []
    | x :: xs => if p x then [xs] else []
  | .cat a b, s => (a.run s).flatMap b.run
  | .star a, s => iterate a.run s.length s
  | .plus a, s => (a.run s).flatMap (fun r => iterate a.run r.length r)
  | .group a, s => a.run s

/-- The preferred match of `re` that starts at the start of `s`. -/
def matchAt (re : Regex) (s : List Char) : Option (List Char) :=
  ((re.run s).head?).map (fun r => s.take (s.length - r.length))

/-- The leftmost match of `re` in `s`: the start positions are tried from left
to right, the empty rest of the text included. -/
def find (re : Regex) : List Char → Option (List Char)
  | [] => matchAt re []
  | c :: cs =>
    match matchAt re (c :: cs) with
    | some m => some m
    | none => find re cs

/-- Go `(*Regexp).MatchString`. -/
def MatchString (re : Regex) (s : String) : Bool :=
  (find re s.data).isSome

/-- Go `(*Regexp).FindString`: the text of the leftmost match, the empty string
when there is none. A title is decoded from JSON, hence valid UTF-8, and is
read as its sequence of characters. -/
def FindString (re : Regex) (s : String) : String :=
  match find re s.data with
  | some m => String.mk m
  | none => ""

/-- The class `\w` of Go (RE2): ASCII letters, ASCII digits and the underscore. -/
def isWord (c : Char) : Bool :=
  c.isAlphanum || c == '_'

/-- The class `\d` of Go (RE2): ASCII digits. -/
def isDigit (c : Char) : Bool :=
  c.isDigit

/-- The pattern compiled in `main`: `(\w*-\d{1,})`. -/
def ticketRegex : Regex :=
  .group (.cat (.star (.cls isWord)) (.cat (.lit '-') (.plus (.cls isDigit))))

/-- The pattern that the specification words: `\w+-\d+`. -/
def wordyRegex : Regex :=
  .cat (.plus (.cls isWord)) (.cat (.lit '-') (.plus (.cls isDigit)))

/-- The body of the second loop of `main` for one title: `MatchString`, and
when it holds `FindString`. -/
def extractTicket (title : String) : Option String :=
  if MatchString ticketRegex title then some (FindString ticketRegex title) else none

/-! ## Data model -/

/-- Go `ChartYaml`: the field `main` reads. -/
structure ChartYaml where
  Version : String
deriving DecidableEq, Repr

/-- Go `ProjectsJson`: the fields `getProjectId` reads. -/
structure ProjectsJson where
  ID : Int
  Name : String
deriving DecidableEq, Repr

/-- Go `TagResponse.Commit`: the field `getTag` reads. -/
structure TagCommit where
  ShortID : String
deriving DecidableEq, Repr

/-- Go `TagResponse`. -/
structure TagResponse where
  Name : String
  Commit : TagCommit
deriving DecidableEq, Repr

/-- An element of Go `Compare.Commits`: the field `main` reads. -/
structure Commit where
  Title : String
deriving DecidableEq, Repr

/-- Go `Compare`. -/
structure Compare where
  Commits : List Commit
deriving DecidableEq, Repr

/-! ## Environment and effects -/

/-- An HTTP response as the program sees it: the status code, which no code
path reads, and the body, `none` when `ioutil.ReadAll` fails. -/
structure Response where
  StatusCode : Nat
  Body : Option String
deriving DecidableEq, Repr

/-- What lies outside the program: the remote and the library decoders.
`newRequest uri` tells whether `http.NewRequest` accepts the URI, `roundTrip
apiKey uri` is the answer of `client.Do` (`none`: transport failure), the
four decoders are `json.Unmarshal` and `yaml.Unmarshal` at the four target
types (`none`: decode error), `showCompare` is the `%v` rendering of a
`Compare` value in the debug trace. -/
structure Env where
  newRequest : String → Bool
  roundTrip : String → String → Option Response
  decodeProjects : String → Option (List ProjectsJson)
  decodeTags : String → Option (List TagResponse)
  decodeCompare : String → Option Compare
  decodeChart : String → Option ChartYaml
  showCompare : Compare → String

/-- The observable effects of a run so far: the chunks written to standard
output, one per print call, and the URI strings, as `fmt.Sprintf` built them,
of the requests that `http.NewRequest` accepted and `client.Do` was called
with, both in order. -/
structure Effects where
  stdout : List String
  requests : List String
deriving DecidableEq, Repr

/-- The step of a call at which `log.Fatal` is reached. -/
inductive Step where
  | newRequest
  | transport
  | readBody
  | decode
deriving DecidableEq, Repr

/-- How a run ends early: `log.Fatal` (exit status 1) or a runtime panic of an
index expression (exit status 2). -/
inductive Abort where
  | fatal (step : Step)
  | indexOutOfRange (index length : Nat)
deriving DecidableEq, Repr

/-- The result of running a piece of the program from given effects. -/
inductive Outcome (α : Type) where
  | done (value : α) (fx : Effects)
  | abort (cause : Abort) (fx : Effects)
deriving DecidableEq, Repr

/-- Sequencing: the rest of the program runs only when the first part returns. -/
def Outcome.andThen {α β : Type} (o : Outcome α) (k : α → Effects → Outcome β) : Outcome β :=
  match o with
  | .done a fx => k a fx
  | .abort e fx => .abort e fx

/-- The effects at the end, however the run ended. -/
def Outcome.effects {α : Type} : Outcome α → Effects
  | .done _ fx => fx
  | .abort _ fx => fx

/-- One print call (`fmt.Println`, `fmt.Printf`), with its full text. -/
def print (text : String) (fx : Effects) : Effects :=
  { fx with stdout := fx.stdout ++ [text] }

/-! ## The four remote calls -/

/-- The request part that the four calls share: `http.NewRequest`, the
`PRIVATE-TOKEN` header, `client.Do`, `ioutil.ReadAll`, each error `log.Fatal`.
The status code of the response is not looked at. -/
def httpGet (env : Env) (apiKey uri : String) (fx : Effects) : Outcome String :=
  if env.newRequest uri then
    let fx1 : Effects := { fx with requests := fx.requests ++ [uri] }
    match env.roundTrip apiKey uri with
    | none => .abort (.fatal .transport) fx1
    | some resp =>
      match resp.Body with
      | none => .abort (.fatal .readBody) fx1
      | some body => .done body fx1
  else .abort (.fatal .newRequest) fx

/-- The URI of `getProjectId`. -/
def projectsUri (projectName : String) : String :=
  "https://gitlab.com/api/v4/projects?simple=true&membership=true&search=" ++ projectName

/-- The URI of `compareBranches`. -/
def compareUri (projectId : Int) (src dst : String) : String :=
  "https://gitlab.com/api/v4/projects/" ++ toString projectId ++ "/repository/compare?from="
    ++ src ++ "&to=" ++ dst

/-- The URI of `getVersion`. -/
def versionUri (projectId : Int) (projectName targetBranch : String) : String :=
  "https://gitlab.com/api/v4/projects/" ++ toString projectId ++ "/repository/files/"
    ++ projectName ++ "%2FChart%2Eyaml/raw?ref=" ++ targetBranch

/-- The URI of `getTag`. -/
def tagsUri (projectId : Int) (tag : String) : String :=
  "https://gitlab.com/api/v4/projects/" ++ toString projectId ++ "/repository/tags?search=" ++ tag

/-- The loop of `getProjectId` over the decoded candidates: `projectId` starts
at the zero value and every candidate whose `Name` is the query overwrites it. -/
def scanProjects (projectsJson : List ProjectsJson) (projectName : String) : Int :=
  projectsJson.foldl (fun projectId i => if i.Name = projectName then i.ID else projectId) 0

/-- Go `getProjectId`. -/
def getProjectId (env : Env) (apiKey projectName : String) (fx : Effects) : Outcome Int :=
  (httpGet env apiKey (projectsUri projectName) fx).andThen fun body fx1 =>
    match env.decodeProjects body with
    | none => .abort (.fatal .decode) fx1
    | some projectsJson => .done (scanProjects projectsJson projectName) fx1

/-- Go `compareBranches`. -/
def compareBranches (env : Env) (apiKey : String) (projectId : Int) (src dst : String)
    (fx : Effects) : Outcome Compare :=
  (httpGet env apiKey (compareUri projectId src dst) fx).andThen fun body fx1 =>
    match env.decodeCompare body with
    | none => .abort (.fatal .decode) fx1
    | some compare => .done compare fx1

/-- Go `getVersion`. -/
def getVersion (env : Env) (apiKey : String) (projectId : Int) (projectName targetBranch : String)
    (fx : Effects) : Outcome String :=
  (httpGet env apiKey (versionUri projectId projectName targetBranch) fx).andThen fun body fx1 =>
    match env.decodeChart body with
    | none => .abort (.fatal .decode) fx1
    | some chart => .done chart.Version fx1

/-- Go `getTag`: `tagResponse[0]` panics on an empty list. -/
def getTag (env : Env) (apiKey : String) (projectId : Int) (tag : String)
    (fx : Effects) : Outcome String :=
  (httpGet env apiKey (tagsUri projectId tag) fx).andThen fun body fx1 =>
    match env.decodeTags body with
    | none => .abort (.fatal .decode) fx1
    | some tagResponse =>
      match tagResponse with
      | [] => .abort (.indexOutOfRange 0 0) fx1
      | first :: _ => .done first.Commit.ShortID fx1

/-! ## `main` -/

/-- The command line of `main` after `flag.Parse`. -/
structure Args where
  projectName : String
  debug : Bool
  appSourceBranch : String
  cdTargetBranch : String

/-- A print call under `if *debug == true`. -/
def debugPrint (debug : Bool) (text : String) (fx : Effects) : Effects :=
  if debug then print text fx else fx

/-- The loop of the debug trace over the commits: `fmt.Println` of each title. -/
def debugTitles : List Commit → Effects → Effects
  | [], fx => fx
  | c :: cs, fx => debugTitles cs (print (c.Title ++ "\n") fx)

/-- The first loop of the report: `fmt.Printf("* %v\n", title)` for each commit. -/
def printTitles : List Commit → Effects → Effects
  | [], fx => fx
  | c :: cs, fx => printTitles cs (print ("* " ++ c.Title ++ "\n") fx)

/-- The text of a ticket line: `fmt.Printf` with the ticket in both places. -/
def ticketLine (ticket : String) : String :=
  "[" ++ ticket ++ "|https://mediciventures.atlassian.net/browse/" ++ ticket ++ "]\n"

/-- The second loop of the report: for each commit whose title matches, one
ticket line. -/
def printTickets : List Commit → Effects → Effects
  | [], fx => fx
  | c :: cs, fx =>
    match extractTicket c.Title with
    | some ticket => printTickets cs (print (ticketLine ticket) fx)
    | none => printTickets cs fx

/-- The report part of `main`, as the statements print it. The comment above
them in the source sketches another layout (a longer separator, the header
`*Discovered JIRA Tickets*`, bulleted links); it is the statements that are
embedded. The pattern is a constant that compiles, so the `log.Fatal` after
`regexp.Compile` is never reached. -/
def printReport (compare : Compare) (fx : Effects) : Effects :=
  let fx1 := print "*Commit Messages*\n" fx
  let fx2 := printTitles compare.Commits fx1
  let fx3 := print "\n" fx2
  let fx4 := print "----------\n" fx3
  let fx5 := print "\n" fx4
  let fx6 := print "*JIRA Tickets*\n" fx5
  printTickets compare.Commits fx6

/-- Go `main`, from the parsed flags and the value of `GITLAB_API_TOKEN`, started
with nothing written and nothing requested. -/
def main (env : Env) (apiKey : String) (args : Args) : Outcome Unit :=
  let debug := args.debug
  let fx0 : Effects := { stdout := [], requests := [] }
  let fx1 :=
    if debug then
      print ("cdTargetBranch: " ++ args.cdTargetBranch ++ "\n")
        (print ("appSourceBranch: " ++ args.appSourceBranch ++ "\n")
          (print ("apiKey: " ++ apiKey ++ "\n")
            (print ("projectName: " ++ args.projectName ++ "\n") fx0)))
    else fx0
  let cdProjectName := "cd-" ++ args.projectName
  (getProjectId env apiKey cdProjectName fx1).andThen fun cdProjectId fx2 =>
  let fx3 := debugPrint debug ("cdProjectId: " ++ toString cdProjectId ++ "\n") fx2
  (getProjectId env apiKey args.projectName fx3).andThen fun appProjectId fx4 =>
  let fx5 := debugPrint debug ("appProjectId: " ++ toString appProjectId ++ "\n") fx4
  (getVersion env apiKey cdProjectId args.projectName args.cdTargetBranch fx5).andThen
    fun deployedVersion fx6 =>
  let fx7 := debugPrint debug ("deployedVersion: " ++ deployedVersion ++ "\n") fx6
  let deployedTag := args.projectName ++ "_v" ++ deployedVersion
  (getTag env apiKey appProjectId deployedTag fx7).andThen fun deployedSha fx8 =>
  let fx9 := debugPrint debug ("deployedSha: " ++ deployedSha ++ "\n") fx8
  (compareBranches env apiKey appProjectId deployedSha args.appSourceBranch fx9).andThen
    fun compare fx10 =>
  let fx11 :=
    if debug then
      debugTitles compare.Commits (print ("compare: " ++ env.showCompare compare ++ "\n") fx10)
    else fx10
  .done () (printReport compare fx11)

/-! ## Definitions used to state the properties -/

/-- Closed form of the preferred match of the ticket pattern at the start of
`s`. -/
def ticketAt (s : List Char) : Option (List Char) :=
  match s.dropWhile isWord with
  | '-' :: x :: xs =>
    if isDigit x then some (s.takeWhile isWord ++ '-' :: x :: xs.takeWhile isDigit) else none
  | _ => none

/-- The text `m` reads: at least `least` word characters, a hyphen, one or
more digits (`\w*-\d+` for `least = 0`, `\w+-\d+` for `least = 1`). -/
def IsTicketText (least : Nat) (m : List Char) : Prop :=
  ∃ w d, m = w ++ '-' :: d ∧ least ≤ w.length ∧ (∀ c ∈ w, isWord c = true) ∧
    d ≠ [] ∧ ∀ c ∈ d, isDigit c = true

/-- The text `s` contains a substring that reads as `IsTicketText least`. -/
def Occurs (least : Nat) (s : List Char) : Prop :=
  ∃ pre m post, s = pre ++ m ++ post ∧ IsTicketText least m

/-- Whether a word character, a hyphen and a digit stand next to each other
somewhere in the text. -/
def hasWordHyphenDigit : List Char → Bool
  | [] => false
  | a :: rest =>
    (match rest with
      | b :: c :: _ => isWord a && b == '-' && isDigit c
      | _ => false) || hasWordHyphenDigit rest

/-- The environment `env` with every status code replaced through `f`. -/
def withStatus (env : Env) (f : String → Nat → Nat) : Env :=
  { env with
    roundTrip := fun apiKey uri =>
      (env.roundTrip apiKey uri).map fun resp => { resp with StatusCode := f uri resp.StatusCode } }

/-! ## Scenarios -/

/-- Body of the project search in the scenarios. -/
def projectsBody : String :=
  "[\x7b\"id\":101,\"name\":\"widget\"\x7d,\x7b\"id\":202,\"name\":\"cd-widget\"\x7d]"

/-- Body of the manifest in the scenarios. -/
def chartBody : String := "name: widget\nversion: \"4.0.1\"\n"

/-- Body of the tag search in the scenarios. -/
def tagsBody : String :=
  "[\x7b\"name\":\"widget_v4.0.1\",\"commit\":\x7b\"short_id\":\"abc123d\"\x7d\x7d]"

/-- Body of the comparison in the scenarios. -/
def compareBody : String :=
  "\x7b\"commits\":[\x7b\"title\":\"ABC-42: fix login bug\"\x7d,\x7b\"title\":\"chore: bump deps\"\x7d]\x7d"

/-- Body of an error answer of the remote. -/
def notFoundBody : String := "\x7b\"message\":\"404 Project Not Found\"\x7d"

/-- The decoders on the bodies of the scenarios, as `json.Unmarshal` and
`yaml.Unmarshal` treat them: an object without known keys decodes to the zero
value of a struct (`Compare`, `ChartYaml`) and is an error for a slice; `[]`
decodes to the empty slice. -/
def scenarioDecoders (roundTrip : String → String → Option Response) : Env where
  newRequest := fun _ => true
  roundTrip := roundTrip
  decodeProjects := fun body =>
    if body = projectsBody then some [⟨101, "widget"⟩, ⟨202, "cd-widget"⟩]
    else if body = "[]" then some []
    else none
  decodeTags := fun body =>
    if body = tagsBody then some [⟨"widget_v4.0.1", ⟨"abc123d"⟩⟩]
    else if body = "[]" then some []
    else none
  decodeCompare := fun body =>
    if body = compareBody then some ⟨[⟨"ABC-42: fix login bug"⟩, ⟨"chore: bump deps"⟩]⟩
    else if body = notFoundBody then some ⟨[]⟩
    else none
  decodeChart := fun body =>
    if body = chartBody then some ⟨"4.0.1"⟩
    else if body = notFoundBody then some ⟨""⟩
    else none
  showCompare := fun _ => ""

/-- The command line `-p widget` with the default branches. -/
def widgetArgs : Args :=
  { projectName := "widget", debug := false, appSourceBranch := "master",
    cdTargetBranch := "production" }

/-- The remote of the end-to-end scenario: application project 101, CD project
202, version 4.0.1 deployed, tagged at `abc123d`. -/
def widgetRemote (compareAnswer : Response) (tagsAnswer : String) (_apiKey uri : String) :
    Option Response :=
  if uri = projectsUri "cd-widget" then some ⟨200, some projectsBody⟩
  else if uri = projectsUri "widget" then some ⟨200, some projectsBody⟩
  else if uri = versionUri 202 "widget" "production" then some ⟨200, some chartBody⟩
  else if uri = tagsUri 101 "widget_v4.0.1" then some ⟨200, some tagsAnswer⟩
  else if uri = compareUri 101 "abc123d" "master" then some compareAnswer
  else some ⟨404, some notFoundBody⟩

/-- The end-to-end scenario. -/
def widgetEnv : Env :=
  scenarioDecoders (widgetRemote ⟨200, some compareBody⟩ tagsBody)

/-- The scenario in which the tag search finds nothing. -/
def noTagEnv : Env :=
  scenarioDecoders (widgetRemote ⟨200, some compareBody⟩ "[]")

/-- The scenario in which the comparison is answered with status 404. -/
def compareNotFoundEnv : Env :=
  scenarioDecoders (widgetRemote ⟨404, some notFoundBody⟩ tagsBody)

/-- The scenario in which no project has the name asked for: every search is
empty, every other request is answered with status 404. -/
def unknownProjectEnv : Env :=
  scenarioDecoders fun _apiKey uri =>
    if uri = projectsUri "cd-widget" then some ⟨200, some "[]"⟩
    else if uri = projectsUri "widget" then some ⟨200, some "[]"⟩
    else some ⟨404, some notFoundBody⟩

/-! ## The matcher on the ticket pattern -/

theorem iterate_step_flatMap (p : Char → Bool) (f : List Char → List (List Char))
    (g : List Char → List (List Char)) (hnil : f [] = [])
    (hcons : ∀ c cs, f (c :: cs) = if p c = true then [cs] else [])
    (hg : ∀ c r, p c = true → g (c :: r) = []) :
    ∀ (n : Nat) (s : List Char), s.length ≤ n →
      (iterate f n s).flatMap g = g (s.dropWhile p) := by
  intro n
  induction n with
  | zero =>
    intro s hs
    have : s = [] := List.length_eq_zero.mp (Nat.le_zero.mp hs)
    subst this
    simp [iterate]
  | succ n ih =>
    intro s hs
    cases s with
    | nil => simp [iterate, hnil]
    | cons c cs =>
      have hcs : cs.length ≤ n := by simpa using hs
      by_cases hc : p c = true
      · simp [iterate, hcons, hc, ih cs hcs, hg c cs hc]
      · simp [iterate, hcons, hc]

theorem iterate_step_head (p : Char → Bool) (f : List Char → List (List Char))
    (hnil : f [] = []) (hcons : ∀ c cs, f (c :: cs) = if p c = true then [cs] else []) :
    ∀ (n : Nat) (s : List Char), s.length ≤ n →
      (iterate f n s).head? = some (s.dropWhile p) := by
  intro n
  induction n with
  | zero =>
    intro s hs
    have : s = [] := List.length_eq_zero.mp (Nat.le_zero.mp hs)
    subst this
    simp [iterate]
  | succ n ih =>
    intro s hs
    cases s with
    | nil => simp [iterate, hnil]
    | cons c cs =>
      have hcs : cs.length ≤ n := by simpa using hs
      by_cases hc : p c = true
      · have h := ih cs hcs
        cases hit : iterate f n cs with
        | nil => rw [hit] at h; simp at h
        | cons r rs =>
          rw [hit] at h
          simp at h
          simp [iterate, hcons, hc, hit, h]
      · simp [iterate, hcons, hc]

theorem take_length_sub (s a b : List Char) (h : s = a ++ b) :
    s.take (s.length - b.length) = a := by
  subst h
  simp

theorem isWord_hyphen : isWord '-' = false := by decide

theorem isDigit_hyphen : isDigit '-' = false := by decide

theorem run_cls_nil (p : Char → Bool) : (Regex.cls p).run [] = [] := rfl

theorem run_cls_cons (p : Char → Bool) (c : Char) (cs : List Char) :
    (Regex.cls p).run (c :: cs) = if p c = true then [cs] else [] := rfl

theorem run_lit_nil (a : Char) : (Regex.lit a).run [] = [] := rfl

theorem run_lit_cons (a c : Char) (cs : List Char) :
    (Regex.lit a).run (c :: cs) = if c = a then [cs] else [] := rfl

theorem run_plus_cls (p : Char → Bool) (s : List Char) :
    (Regex.plus (Regex.cls p)).run s =
      ((Regex.cls p).run s).flatMap (fun r => iterate (Regex.cls p).run r.length r) := rfl

theorem run_ticketRegex (s : List Char) :
    ticketRegex.run s =
      (iterate (Regex.cls isWord).run s.length s).flatMap
        (fun t => ((Regex.lit '-').run t).flatMap (Regex.plus (Regex.cls isDigit)).run) := rfl

theorem matchAt_ticketRegex (s : List Char) : matchAt ticketRegex s = ticketAt s := by
  have hg : ∀ c r, isWord c = true →
      (fun t => ((Regex.lit '-').run t).flatMap (Regex.plus (Regex.cls isDigit)).run) (c :: r)
        = [] := by
    intro c r hc
    have : c ≠ '-' := by
      intro h; rw [h, isWord_hyphen] at hc; exact Bool.noConfusion hc
    simp [run_lit_cons, this]
  have h := iterate_step_flatMap isWord (Regex.cls isWord).run
    (fun t => ((Regex.lit '-').run t).flatMap (Regex.plus (Regex.cls isDigit)).run)
    (run_cls_nil _) (run_cls_cons _) hg s.length s (le_refl _)
  unfold matchAt ticketAt
  rw [run_ticketRegex, h]
  have hsplit := List.takeWhile_append_dropWhile isWord s
  cases hd : s.dropWhile isWord with
  | nil => simp [run_lit_nil]
  | cons y ys =>
    by_cases hy : y = '-'
    · subst hy
      cases ys with
      | nil => simp [run_lit_cons, run_plus_cls, run_cls_nil]
      | cons x xs =>
        by_cases hx : isDigit x = true
        · have hh := iterate_step_head isDigit (Regex.cls isDigit).run (run_cls_nil _)
            (run_cls_cons _) xs.length xs (le_refl _)
          have hxs := List.takeWhile_append_dropWhile isDigit xs
          simp only [run_lit_cons, run_plus_cls, run_cls_cons, hx, if_true, List.flatMap_cons,
            List.flatMap_nil, List.append_nil, hh, Option.map_some']
          rw [hd] at hsplit
          have hs : s = (List.takeWhile isWord s ++ '-' :: x :: List.takeWhile isDigit xs)
              ++ List.dropWhile isDigit xs := by
            simp [hxs, hsplit]
          rw [take_length_sub s _ _ hs]
        · simp [run_lit_cons, run_plus_cls, run_cls_cons, hx]
    · simp [run_lit_cons, hy]

theorem ticketAt_of_text (w : List Char) (x : Char) (rest : List Char)
    (hw : ∀ c ∈ w, isWord c = true) (hx : isDigit x = true) :
    ticketAt (w ++ '-' :: x :: rest) = some (w ++ '-' :: x :: rest.takeWhile isDigit) := by
  unfold ticketAt
  have h1 : List.dropWhile isWord (w ++ '-' :: x :: rest) = '-' :: x :: rest := by
    rw [List.dropWhile_append_of_pos hw]
    simp [isWord_hyphen]
  have h2 : List.takeWhile isWord (w ++ '-' :: x :: rest) = w := by
    rw [List.takeWhile_append_of_pos hw]
    simp [isWord_hyphen]
  rw [h1, h2]
  simp [hx]

theorem ticketAt_eq_some (s m : List Char) (h : ticketAt s = some m) :
    ∃ w x post, s = w ++ '-' :: x :: post ∧ (∀ c ∈ w, isWord c = true) ∧ isDigit x = true ∧
      m = w ++ '-' :: x :: post.takeWhile isDigit := by
  unfold ticketAt at h
  have hsplit := List.takeWhile_append_dropWhile isWord s
  have hw : ∀ c ∈ s.takeWhile isWord, isWord c = true := fun c hc => List.mem_takeWhile_imp hc
  split at h
  · rename_i x xs hd
    by_cases hx : isDigit x = true
    · simp [hx] at h
      refine ⟨s.takeWhile isWord, x, xs, ?_, hw, hx, h.symm⟩
      rw [← hd, hsplit]
    · simp [hx] at h
  · exact Option.noConfusion h

theorem ticketAt_isTicketText (s m : List Char) (h : ticketAt s = some m) :
    IsTicketText 0 m ∧ ∃ post, s = m ++ post ∧ ∀ c, post.head? = some c → isDigit c = false := by
  obtain ⟨w, x, post, hs, hw, hx, hm⟩ := ticketAt_eq_some s m h
  refine ⟨⟨w, x :: post.takeWhile isDigit, hm, Nat.zero_le _, hw, by simp, ?_⟩,
    post.dropWhile isDigit, ?_, ?_⟩
  · intro c hc
    rcases List.mem_cons.mp hc with hc | hc
    · rw [hc]; exact hx
    · exact List.mem_takeWhile_imp hc
  · rw [hs, hm]; simp
  · intro c hc
    have := List.head?_dropWhile_not isDigit post
    rw [hc] at this
    simpa using this

theorem ticketAt_text_append (m post : List Char) (hm : IsTicketText 0 m) :
    ∃ t, ticketAt (m ++ post) = some t := by
  obtain ⟨w, d, rfl, -, hw, hne, hd⟩ := hm
  cases d with
  | nil => exact absurd rfl hne
  | cons x xs =>
    have := ticketAt_of_text w x (xs ++ post) hw (hd x (List.mem_cons_self _ _))
    exact ⟨_, by simpa using this⟩

theorem find_nil : find ticketRegex [] = none := by
  simp [find, matchAt_ticketRegex, ticketAt]

theorem find_cons (c : Char) (cs : List Char) :
    find ticketRegex (c :: cs) =
      match ticketAt (c :: cs) with
      | some m => some m
      | none => find ticketRegex cs := by
  simp [find, matchAt_ticketRegex]

/-- What `find` returns, when the text has an occurrence of `\w*-\d+`: an
occurrence that no other one starts before, with all the digits that follow. -/
theorem find_spec : ∀ s : List Char, Occurs 0 s →
    ∃ pre m post, s = pre ++ m ++ post ∧ IsTicketText 0 m ∧ find ticketRegex s = some m ∧
      (∀ pre2 m2 post2, s = pre2 ++ m2 ++ post2 → IsTicketText 0 m2 → pre.length ≤ pre2.length) ∧
      (∀ c, post.head? = some c → isDigit c = false) := by
  intro s
  induction s with
  | nil =>
    rintro ⟨pre, m, post, hs, w, d, rfl, -⟩
    simp at hs
  | cons c cs ih =>
    intro hocc
    rw [find_cons]
    cases hat : ticketAt (c :: cs) with
    | some m =>
      obtain ⟨hm, post, hs, hpost⟩ := ticketAt_isTicketText _ _ hat
      exact ⟨[], m, post, by simpa using hs, hm, rfl, fun _ _ _ _ _ => Nat.zero_le _, hpost⟩
    | none =>
      have hshift : ∀ pre2 m2 post2, c :: cs = pre2 ++ m2 ++ post2 → IsTicketText 0 m2 →
          ∃ p, pre2 = c :: p ∧ cs = p ++ m2 ++ post2 := by
        intro pre2 m2 post2 hs hm2
        cases pre2 with
        | nil =>
          obtain ⟨t, ht⟩ := ticketAt_text_append m2 post2 hm2
          rw [List.nil_append] at hs
          rw [hs, ht] at hat
          exact Option.noConfusion hat
        | cons a p =>
          simp at hs
          exact ⟨p, by rw [hs.1], by simpa using hs.2⟩
      obtain ⟨pre0, m0, post0, hs0, hm0⟩ := hocc
      obtain ⟨p0, -, hcs0⟩ := hshift pre0 m0 post0 hs0 hm0
      obtain ⟨pre, m, post, hs, hm, hfind, hleft, hpost⟩ := ih ⟨p0, m0, post0, hcs0, hm0⟩
      refine ⟨c :: pre, m, post, by simp [hs], hm, hfind, ?_, hpost⟩
      intro pre2 m2 post2 hs2 hm2
      obtain ⟨p, rfl, hcs⟩ := hshift pre2 m2 post2 hs2 hm2
      have := hleft p m2 post2 hcs hm2
      simpa using this

/-- A match that `find` returns is an occurrence of `\w*-\d+`. -/
theorem find_some_occurs : ∀ (s m : List Char), find ticketRegex s = some m →
    IsTicketText 0 m ∧ Occurs 0 s := by
  intro s
  induction s with
  | nil => intro m h; rw [find_nil] at h; exact Option.noConfusion h
  | cons c cs ih =>
    intro m h
    rw [find_cons] at h
    cases hat : ticketAt (c :: cs) with
    | some t =>
      rw [hat] at h
      simp at h
      subst h
      obtain ⟨hm, post, hs, -⟩ := ticketAt_isTicketText _ _ hat
      exact ⟨hm, [], t, post, by simpa using hs, hm⟩
    | none =>
      rw [hat] at h
      obtain ⟨hm, pre, m2, post, hs, hm2⟩ := ih m h
      exact ⟨hm, c :: pre, m2, post, by simp [hs], hm2⟩

theorem extractTicket_eq (title : String) :
    extractTicket title = (find ticketRegex title.data).map String.mk := by
  unfold extractTicket MatchString FindString
  cases find ticketRegex title.data <;> simp

theorem occurs_zero_iff (s : List Char) :
    Occurs 0 s ↔ ∃ pre x post, s = pre ++ '-' :: x :: post ∧ isDigit x = true := by
  constructor
  · rintro ⟨pre, m, post, hs, w, d, rfl, -, -, hne, hd⟩
    cases d with
    | nil => exact absurd rfl hne
    | cons x xs =>
      exact ⟨pre ++ w, x, xs ++ post, by simp [hs], hd x (List.mem_cons_self _ _)⟩
  · rintro ⟨pre, x, post, hs, hx⟩
    refine ⟨pre, '-' :: [x], post, by simp [hs], [], [x], rfl, Nat.zero_le _, by simp, by simp, ?_⟩
    intro c hc
    rw [List.mem_singleton.mp hc]
    exact hx

theorem find_none_of_not_occurs (s : List Char) (h : ¬ Occurs 0 s) :
    find ticketRegex s = none := by
  cases hf : find ticketRegex s with
  | none => rfl
  | some m => exact absurd (find_some_occurs s m hf).2 h

theorem find_text (m : List Char) (hm : IsTicketText 0 m) : find ticketRegex m = some m := by
  obtain ⟨w, d, rfl, -, hw, hne, hd⟩ := hm
  cases d with
  | nil => exact absurd rfl hne
  | cons x xs =>
    have hat := ticketAt_of_text w x xs hw (hd x (List.mem_cons_self _ _))
    have hxs : xs.takeWhile isDigit = xs :=
      List.takeWhile_eq_self_iff.mpr (fun c hc => hd c (List.mem_cons_of_mem _ hc))
    rw [hxs] at hat
    cases w with
    | nil =>
      rw [List.nil_append] at hat ⊢
      rw [find_cons, hat]
    | cons a as =>
      rw [List.cons_append] at hat ⊢
      rw [find_cons, hat]

theorem hyphen_split (l1 r1 l2 r2 : List Char) (h : l1 ++ '-' :: r1 = l2 ++ '-' :: r2)
    (hlen : l1.length ≤ l2.length) (hl2 : ∀ c ∈ l2, isWord c = true) : l1 = l2 ∧ r1 = r2 := by
  rcases List.append_eq_append_iff.mp h with ⟨a, ha, hb⟩ | ⟨a, ha, hb⟩
  · cases a with
    | nil => simp at ha hb; exact ⟨ha.symm, hb⟩
    | cons y ys =>
      simp at hb
      have hy : y = '-' := hb.1.symm
      have : isWord '-' = true := hl2 '-' (by rw [ha, hy]; simp)
      rw [isWord_hyphen] at this
      exact Bool.noConfusion this
  · cases a with
    | nil => simp at ha hb; exact ⟨ha, hb.symm⟩
    | cons y ys =>
      rw [ha] at hlen
      simp at hlen

theorem rtakeWhile_all (l : List Char) (h : ∀ c ∈ l, isWord c = true) :
    l.rtakeWhile isWord = l := by
  unfold List.rtakeWhile
  have : l.reverse.takeWhile isWord = l.reverse :=
    List.takeWhile_eq_self_iff.mpr (fun c hc => h c (List.mem_reverse.mp hc))
  rw [this, List.reverse_reverse]

theorem rtakeWhile_cons (c : Char) (p : List Char) (h : ¬ ∀ a ∈ c :: p, isWord a = true) :
    (c :: p).rtakeWhile isWord = p.rtakeWhile isWord := by
  unfold List.rtakeWhile
  rw [List.reverse_cons, List.takeWhile_append]
  split
  · rename_i hlen
    have hall : ∀ a ∈ p, isWord a = true := by
      have : p.reverse.takeWhile isWord = p.reverse := by
        have hpre : (p.reverse.takeWhile isWord) <+: p.reverse := List.takeWhile_prefix _
        exact hpre.eq_of_length hlen
      intro a ha
      exact (List.takeWhile_eq_self_iff.mp this) a (List.mem_reverse.mpr ha)
    have hc : ¬ isWord c = true := by
      intro hc
      apply h
      intro a ha
      rcases List.mem_cons.mp ha with ha | ha
      · rw [ha]; exact hc
      · exact hall a ha
    have htw : p.reverse.takeWhile isWord = p.reverse :=
      List.takeWhile_eq_self_iff.mpr (fun a ha => hall a (List.mem_reverse.mp ha))
    simp [hc, htw]
  · rfl

/-- The match at the first hyphen that a digit follows. -/
theorem find_first (x : Char) (post : List Char) (hx : isDigit x = true) :
    ∀ pre : List Char,
      (∀ p y q, pre ++ '-' :: x :: post = p ++ '-' :: y :: q → isDigit y = true →
        pre.length ≤ p.length) →
      find ticketRegex (pre ++ '-' :: x :: post) =
        some (pre.rtakeWhile isWord ++ '-' :: (x :: post).takeWhile isDigit) := by
  intro pre
  induction pre with
  | nil =>
    intro _
    have := ticketAt_of_text [] x post (by simp) hx
    simp only [List.nil_append] at this ⊢
    rw [find_cons, this]
    simp [List.rtakeWhile, hx]
  | cons c p ih =>
    intro hfirst
    rw [List.cons_append, find_cons]
    cases hat : ticketAt (c :: (p ++ '-' :: x :: post)) with
    | some m =>
      obtain ⟨w, x2, post2, hs, hw, hx2, hm⟩ := ticketAt_eq_some _ _ hat
      have hlen := hfirst w x2 post2 (by simpa using hs) hx2
      obtain ⟨hwp, hrest⟩ := hyphen_split (c :: p) (x :: post) w (x2 :: post2)
        (by simpa using hs) hlen hw
      simp at hrest
      obtain ⟨rfl, rfl⟩ := hrest
      subst hwp
      rw [rtakeWhile_all _ hw, hm]
      simp [hx]
    | none =>
      have hnot : ¬ ∀ a ∈ c :: p, isWord a = true := by
        intro hall
        have := ticketAt_of_text (c :: p) x post hall hx
        rw [List.cons_append, hat] at this
        exact Option.noConfusion this
      rw [rtakeWhile_cons c p hnot]
      apply ih
      intro p1 y q hs hy
      have := hfirst (c :: p1) y q (by simp [hs]) hy
      simpa using this

theorem ticketText_hyphens (m : List Char) (hm : IsTicketText 0 m) :
    m.count '-' = 1 ∧ ∃ c, m.getLast? = some c ∧ isDigit c = true := by
  obtain ⟨w, d, rfl, -, hw, hne, hd⟩ := hm
  have h1 : w.count '-' = 0 := by
    apply List.count_eq_zero.mpr
    intro hmem
    have := hw _ hmem
    rw [isWord_hyphen] at this
    exact Bool.noConfusion this
  have h2 : d.count '-' = 0 := by
    apply List.count_eq_zero.mpr
    intro hmem
    have := hd _ hmem
    rw [isDigit_hyphen] at this
    exact Bool.noConfusion this
  refine ⟨by simp [List.count_append, List.count_cons, h1, h2], ?_⟩
  refine ⟨d.getLast hne, ?_, hd _ (List.getLast_mem hne)⟩
  have : w ++ '-' :: d = (w ++ ['-']) ++ d := by simp
  rw [this, List.getLast?_append_of_ne_nil _ hne, List.getLast?_eq_getLast _ hne]

theorem hasWordHyphenDigit_cons (a : Char) (rest : List Char) :
    hasWordHyphenDigit (a :: rest) =
      ((match rest with
        | b :: c :: _ => isWord a && b == '-' && isDigit c
        | _ => false) || hasWordHyphenDigit rest) := rfl

theorem hasWordHyphenDigit_append (a x : Char) (r : List Char) (ha : isWord a = true)
    (hx : isDigit x = true) :
    ∀ p : List Char, hasWordHyphenDigit (p ++ a :: '-' :: x :: r) = true := by
  intro p
  induction p with
  | nil => simp [hasWordHyphenDigit, ha, hx]
  | cons c cs ih =>
    rw [List.cons_append, hasWordHyphenDigit_cons, ih, Bool.or_true]

theorem occurs_one_hasWordHyphenDigit (s : List Char) (h : Occurs 1 s) :
    hasWordHyphenDigit s = true := by
  obtain ⟨pre, m, post, hs, w, d, rfl, hlen, hw, hne, hd⟩ := h
  cases d with
  | nil => exact absurd rfl hne
  | cons x xs =>
    have hwne : w ≠ [] := by
      intro h0; rw [h0] at hlen; simp at hlen
    have hsplit := List.dropLast_append_getLast hwne
    have hs2 : s = (pre ++ w.dropLast) ++ w.getLast hwne :: '-' :: x :: (xs ++ post) := by
      rw [hs]
      nth_rewrite 1 [← hsplit]
      simp
    rw [hs2]
    exact hasWordHyphenDigit_append _ _ _ (hw _ (List.getLast_mem hwne))
      (hd x (List.mem_cons_self _ _)) _

theorem getElem_at_split (p : List Char) (a y : Char) (q : List Char) :
    (p ++ a :: y :: q)[p.length]? = some a ∧ (p ++ a :: y :: q)[p.length + 1]? = some y := by
  constructor
  · rw [List.getElem?_append_right (le_refl _)]
    simp
  · rw [List.getElem?_append_right (by omega)]
    simp

/-! ## The loops of `main` -/

theorem print_requests (text : String) (fx : Effects) : (print text fx).requests = fx.requests :=
  rfl

theorem print_stdout (text : String) (fx : Effects) :
    (print text fx).stdout = fx.stdout ++ [text] := rfl

theorem debugPrint_requests (debug : Bool) (text : String) (fx : Effects) :
    (debugPrint debug text fx).requests = fx.requests := by
  cases debug <;> rfl

theorem printTitles_stdout : ∀ (cs : List Commit) (fx : Effects),
    (printTitles cs fx).stdout = fx.stdout ++ cs.map (fun c => "* " ++ c.Title ++ "\n") ∧
      (printTitles cs fx).requests = fx.requests := by
  intro cs
  induction cs with
  | nil => intro fx; simp [printTitles]
  | cons c cs ih =>
    intro fx
    simp [printTitles, ih, print_stdout, print_requests]

theorem printTickets_stdout : ∀ (cs : List Commit) (fx : Effects),
    (printTickets cs fx).stdout =
        fx.stdout ++ cs.filterMap (fun c => (extractTicket c.Title).map ticketLine) ∧
      (printTickets cs fx).requests = fx.requests := by
  intro cs
  induction cs with
  | nil => intro fx; simp [printTickets]
  | cons c cs ih =>
    intro fx
    cases h : extractTicket c.Title with
    | none => simp [printTickets, h, ih]
    | some t => simp [printTickets, h, ih, print_stdout, print_requests]

theorem debugTitles_requests : ∀ (cs : List Commit) (fx : Effects),
    (debugTitles cs fx).requests = fx.requests := by
  intro cs
  induction cs with
  | nil => intro fx; rfl
  | cons c cs ih => intro fx; simp [debugTitles, ih, print_requests]

theorem printReport_requests (compare : Compare) (fx : Effects) :
    (printReport compare fx).requests = fx.requests := by
  simp [printReport, (printTickets_stdout _ _).2, (printTitles_stdout _ _).2, print_requests]

theorem printTickets_skip (title : String) (h : extractTicket title = none) :
    ∀ (before after : List Commit) (fx : Effects),
      printTickets (before ++ ⟨title⟩ :: after) fx = printTickets (before ++ after) fx := by
  intro before
  induction before with
  | nil => intro after fx; simp [printTickets, h]
  | cons c cs ih =>
    intro after fx
    cases hc : extractTicket c.Title with
    | none => simp [printTickets, hc, ih]
    | some t => simp [printTickets, hc, ih]

theorem foldl_no_match (q : String) : ∀ (l : List ProjectsJson) (acc : Int),
    (∀ d ∈ l, d.Name ≠ q) →
      l.foldl (fun projectId i => if i.Name = q then i.ID else projectId) acc = acc := by
  intro l
  induction l with
  | nil => intro acc _; rfl
  | cons d ds ih =>
    intro acc h
    have hd : d.Name ≠ q := h d (List.mem_cons_self _ _)
    simp only [List.foldl_cons, if_neg hd]
    exact ih acc (fun e he => h e (List.mem_cons_of_mem _ he))

theorem printReport_lines (compare : Compare) (fx : Effects) :
    (printReport compare fx).stdout =
      fx.stdout ++ ["*Commit Messages*\n"]
        ++ compare.Commits.map (fun c => "* " ++ c.Title ++ "\n")
        ++ ["\n", "----------\n", "\n", "*JIRA Tickets*\n"]
        ++ compare.Commits.filterMap (fun c => (extractTicket c.Title).map ticketLine) := by
  simp only [printReport, (printTickets_stdout _ _).1, (printTitles_stdout _ _).1, print_stdout]
  simp only [List.append_assoc, List.cons_append, List.nil_append]

/-! ## The remote calls -/

theorem httpGet_ok (env : Env) (apiKey uri : String) (fx : Effects) (status : Nat)
    (body : String) (hnew : env.newRequest uri = true)
    (h : env.roundTrip apiKey uri = some ⟨status, some body⟩) :
    httpGet env apiKey uri fx = .done body { fx with requests := fx.requests ++ [uri] } := by
  simp [httpGet, hnew, h]

theorem httpGet_requests (env : Env) (apiKey uri : String) (fx : Effects)
    (hnew : env.newRequest uri = true) :
    (httpGet env apiKey uri fx).effects.requests = fx.requests ++ [uri] ∧
      (httpGet env apiKey uri fx).effects.stdout = fx.stdout := by
  unfold httpGet
  rw [if_pos hnew]
  cases env.roundTrip apiKey uri with
  | none => exact ⟨rfl, rfl⟩
  | some resp =>
    cases hb : resp.Body with
    | none => simp [hb, Outcome.effects]
    | some body => simp [hb, Outcome.effects]

theorem httpGet_withStatus (env : Env) (f : String → Nat → Nat) (apiKey uri : String)
    (fx : Effects) : httpGet (withStatus env f) apiKey uri fx = httpGet env apiKey uri fx := by
  cases h : env.roundTrip apiKey uri with
  | none => simp [httpGet, withStatus, h]
  | some resp => simp [httpGet, withStatus, h]

theorem andThen_requests {α β : Type} (o : Outcome α) (k : α → Effects → Outcome β)
    (l : List String) (ho : o.effects.requests = l)
    (hk : ∀ a fx, fx.requests = l → l <+: (k a fx).effects.requests) :
    l <+: (o.andThen k).effects.requests := by
  cases o with
  | done a fx => exact hk a fx ho
  | abort e fx =>
    have : fx.requests = l := ho
    simp [Outcome.andThen, Outcome.effects, this]

theorem andThen_effects_eq {α β : Type} (o : Outcome α) (k : α → Effects → Outcome β)
    (l : List String) (ho : o.effects.requests = l)
    (hk : ∀ a fx, fx.requests = l → (k a fx).effects.requests = l) :
    (o.andThen k).effects.requests = l := by
  cases o with
  | done a fx => exact hk a fx ho
  | abort e fx => exact ho

theorem getVersion_requests (env : Env) (apiKey : String) (projectId : Int)
    (name ref : String) (fx : Effects)
    (hnew : env.newRequest (versionUri projectId name ref) = true) :
    (getVersion env apiKey projectId name ref fx).effects.requests =
      fx.requests ++ [versionUri projectId name ref] := by
  unfold getVersion
  apply andThen_effects_eq _ _ _ (httpGet_requests env apiKey _ fx hnew).1
  intro body fx1 h1
  cases env.decodeChart body <;> exact h1

theorem getTag_requests (env : Env) (apiKey : String) (projectId : Int) (tag : String)
    (fx : Effects) (hnew : env.newRequest (tagsUri projectId tag) = true) :
    (getTag env apiKey projectId tag fx).effects.requests =
      fx.requests ++ [tagsUri projectId tag] := by
  unfold getTag
  apply andThen_effects_eq _ _ _ (httpGet_requests env apiKey _ fx hnew).1
  intro body fx1 h1
  cases env.decodeTags body with
  | none => exact h1
  | some l => cases l <;> exact h1

theorem compareBranches_requests (env : Env) (apiKey : String) (projectId : Int)
    (src dst : String) (fx : Effects)
    (hnew : env.newRequest (compareUri projectId src dst) = true) :
    (compareBranches env apiKey projectId src dst fx).effects.requests =
      fx.requests ++ [compareUri projectId src dst] := by
  unfold compareBranches
  apply andThen_effects_eq _ _ _ (httpGet_requests env apiKey _ fx hnew).1
  intro body fx1 h1
  cases env.decodeCompare body <;> exact h1

theorem andThen_done {α β : Type} (a : α) (fx : Effects) (k : α → Effects → Outcome β) :
    (Outcome.done a fx).andThen k = k a fx := rfl

theorem andThen_extends {α β : Type} (o : Outcome α) (k : α → Effects → Outcome β)
    (l : List String) (ho : l <+: o.effects.requests)
    (hk : ∀ a fx, l <+: fx.requests → l <+: (k a fx).effects.requests) :
    l <+: (o.andThen k).effects.requests := by
  cases o with
  | done a fx => exact hk a fx ho
  | abort e fx => exact ho

theorem httpGet_rejected (env : Env) (apiKey uri : String) (fx : Effects)
    (hnew : env.newRequest uri = false) :
    httpGet env apiKey uri fx = .abort (.fatal .newRequest) fx := by
  simp [httpGet, hnew]

theorem httpGet_extends (env : Env) (apiKey uri : String) (fx : Effects) (l : List String)
    (h : l <+: fx.requests) : l <+: (httpGet env apiKey uri fx).effects.requests := by
  cases hn : env.newRequest uri with
  | false => rw [httpGet_rejected env apiKey uri fx hn]; exact h
  | true =>
    rw [(httpGet_requests env apiKey uri fx hn).1]
    exact h.trans (List.prefix_append _ _)

theorem getTag_extends (env : Env) (apiKey : String) (projectId : Int) (tag : String)
    (fx : Effects) (l : List String) (h : l <+: fx.requests) :
    l <+: (getTag env apiKey projectId tag fx).effects.requests := by
  unfold getTag
  apply andThen_extends _ _ _ (httpGet_extends env apiKey _ fx l h)
  intro body fx1 h1
  cases env.decodeTags body with
  | none => exact h1
  | some found => cases found <;> exact h1

theorem compareBranches_extends (env : Env) (apiKey : String) (projectId : Int)
    (src dst : String) (fx : Effects) (l : List String) (h : l <+: fx.requests) :
    l <+: (compareBranches env apiKey projectId src dst fx).effects.requests := by
  unfold compareBranches
  apply andThen_extends _ _ _ (httpGet_extends env apiKey _ fx l h)
  intro body fx1 h1
  cases env.decodeCompare body <;> exact h1

/-- The run up to the manifest request, whatever the two project ids are. -/
theorem main_reaches_version (env : Env) (apiKey name : String) (debug : Bool)
    (src dst : String) (s1 s2 : Nat) (b1 b2 : String)
    (cdProjects appProjects : List ProjectsJson)
    (n1 : env.newRequest (projectsUri ("cd-" ++ name)) = true)
    (h1 : env.roundTrip apiKey (projectsUri ("cd-" ++ name)) = some ⟨s1, some b1⟩)
    (d1 : env.decodeProjects b1 = some cdProjects)
    (n2 : env.newRequest (projectsUri name) = true)
    (h2 : env.roundTrip apiKey (projectsUri name) = some ⟨s2, some b2⟩)
    (d2 : env.decodeProjects b2 = some appProjects)
    (n3 : env.newRequest (versionUri (scanProjects cdProjects ("cd-" ++ name)) name dst) = true) :
    [projectsUri ("cd-" ++ name), projectsUri name,
        versionUri (scanProjects cdProjects ("cd-" ++ name)) name dst]
      <+: (main env apiKey ⟨name, debug, src, dst⟩).effects.requests := by
  simp only [main, getProjectId, httpGet_ok env apiKey _ _ _ _ n1 h1,
    httpGet_ok env apiKey _ _ _ _ n2 h2, andThen_done, d1, d2]
  apply andThen_requests
  · rw [getVersion_requests _ _ _ _ _ _ n3]
    cases debug <;> simp [debugPrint, print]
  · intro version fx6 h6
    apply andThen_extends _ _ _
      (getTag_extends env apiKey _ _ _ _ (by rw [debugPrint_requests, h6]))
    intro sha fx8 h8
    apply andThen_extends _ _ _
      (compareBranches_extends env apiKey _ sha src _ _ (by rw [debugPrint_requests]; exact h8))
    intro compare fx10 h10
    simp only [Outcome.effects, printReport_requests]
    cases debug
    · exact h10
    · simpa [debugTitles_requests, print_requests] using h10

/-- The run that stops at the manifest because its URI is refused. -/
theorem main_version_refused (env : Env) (apiKey name : String) (debug : Bool)
    (src dst : String) (s1 s2 : Nat) (b1 b2 : String)
    (cdProjects appProjects : List ProjectsJson)
    (n1 : env.newRequest (projectsUri ("cd-" ++ name)) = true)
    (h1 : env.roundTrip apiKey (projectsUri ("cd-" ++ name)) = some ⟨s1, some b1⟩)
    (d1 : env.decodeProjects b1 = some cdProjects)
    (n2 : env.newRequest (projectsUri name) = true)
    (h2 : env.roundTrip apiKey (projectsUri name) = some ⟨s2, some b2⟩)
    (d2 : env.decodeProjects b2 = some appProjects)
    (n3 : env.newRequest (versionUri (scanProjects cdProjects ("cd-" ++ name)) name dst)
      = false) :
    ∃ fx, main env apiKey ⟨name, debug, src, dst⟩ = .abort (.fatal .newRequest) fx ∧
      fx.requests = [projectsUri ("cd-" ++ name), projectsUri name] := by
  generalize hrun : main env apiKey ⟨name, debug, src, dst⟩ = o
  simp only [main, getProjectId, getVersion, httpGet_ok env apiKey _ _ _ _ n1 h1,
    httpGet_ok env apiKey _ _ _ _ n2 h2, httpGet_rejected env apiKey _ _ n3,
    Outcome.andThen, d1, d2] at hrun
  subst hrun
  refine ⟨_, rfl, ?_⟩
  cases debug <;> simp [debugPrint, print]

/-- The run up to the tag search, whatever the two project ids are. -/
theorem main_reaches_tags (env : Env) (apiKey name : String) (debug : Bool)
    (src dst : String) (s1 s2 s3 : Nat) (b1 b2 b3 : String)
    (cdProjects appProjects : List ProjectsJson) (chart : ChartYaml)
    (n1 : env.newRequest (projectsUri ("cd-" ++ name)) = true)
    (h1 : env.roundTrip apiKey (projectsUri ("cd-" ++ name)) = some ⟨s1, some b1⟩)
    (d1 : env.decodeProjects b1 = some cdProjects)
    (n2 : env.newRequest (projectsUri name) = true)
    (h2 : env.roundTrip apiKey (projectsUri name) = some ⟨s2, some b2⟩)
    (d2 : env.decodeProjects b2 = some appProjects)
    (n3 : env.newRequest (versionUri (scanProjects cdProjects ("cd-" ++ name)) name dst) = true)
    (h3 : env.roundTrip apiKey (versionUri (scanProjects cdProjects ("cd-" ++ name)) name dst)
      = some ⟨s3, some b3⟩)
    (d3 : env.decodeChart b3 = some chart)
    (n4 : env.newRequest
      (tagsUri (scanProjects appProjects name) (name ++ "_v" ++ chart.Version)) = true) :
    [projectsUri ("cd-" ++ name), projectsUri name,
        versionUri (scanProjects cdProjects ("cd-" ++ name)) name dst,
        tagsUri (scanProjects appProjects name) (name ++ "_v" ++ chart.Version)]
      <+: (main env apiKey ⟨name, debug, src, dst⟩).effects.requests := by
  simp only [main, getProjectId, getVersion, httpGet_ok env apiKey _ _ _ _ n1 h1,
    httpGet_ok env apiKey _ _ _ _ n2 h2, httpGet_ok env apiKey _ _ _ _ n3 h3,
    andThen_done, d1, d2, d3]
  apply andThen_requests
  · rw [getTag_requests _ _ _ _ _ n4]
    cases debug <;> simp [debugPrint, print]
  · intro sha fx8 h8
    apply andThen_extends _ _ _
      (compareBranches_extends env apiKey _ sha src _ _ (by rw [debugPrint_requests, h8]))
    intro compare fx10 h10
    simp only [Outcome.effects, printReport_requests]
    cases debug
    · exact h10
    · simpa [debugTitles_requests, print_requests] using h10

/-- The run in which every call is answered and every body decodes: the five
requests, and the report written after what the debug trace wrote. -/
theorem main_run (env : Env) (apiKey name : String) (debug : Bool) (src dst : String)
    (s1 s2 s3 s4 s5 : Nat) (b1 b2 b3 b4 b5 : String)
    (cdProjects appProjects : List ProjectsJson) (chart : ChartYaml)
    (tag : TagResponse) (tags : List TagResponse) (compare : Compare)
    (n1 : env.newRequest (projectsUri ("cd-" ++ name)) = true)
    (h1 : env.roundTrip apiKey (projectsUri ("cd-" ++ name)) = some ⟨s1, some b1⟩)
    (d1 : env.decodeProjects b1 = some cdProjects)
    (n2 : env.newRequest (projectsUri name) = true)
    (h2 : env.roundTrip apiKey (projectsUri name) = some ⟨s2, some b2⟩)
    (d2 : env.decodeProjects b2 = some appProjects)
    (n3 : env.newRequest (versionUri (scanProjects cdProjects ("cd-" ++ name)) name dst) = true)
    (h3 : env.roundTrip apiKey (versionUri (scanProjects cdProjects ("cd-" ++ name)) name dst)
      = some ⟨s3, some b3⟩)
    (d3 : env.decodeChart b3 = some chart)
    (n4 : env.newRequest
      (tagsUri (scanProjects appProjects name) (name ++ "_v" ++ chart.Version)) = true)
    (h4 : env.roundTrip apiKey
      (tagsUri (scanProjects appProjects name) (name ++ "_v" ++ chart.Version))
      = some ⟨s4, some b4⟩)
    (d4 : env.decodeTags b4 = some (tag :: tags))
    (n5 : env.newRequest
      (compareUri (scanProjects appProjects name) tag.Commit.ShortID src) = true)
    (h5 : env.roundTrip apiKey
      (compareUri (scanProjects appProjects name) tag.Commit.ShortID src) = some ⟨s5, some b5⟩)
    (d5 : env.decodeCompare b5 = some compare) :
    ∃ fx0, main env apiKey ⟨name, debug, src, dst⟩ = .done () (printReport compare fx0) ∧
      fx0.requests =
        [projectsUri ("cd-" ++ name), projectsUri name,
          versionUri (scanProjects cdProjects ("cd-" ++ name)) name dst,
          tagsUri (scanProjects appProjects name) (name ++ "_v" ++ chart.Version),
          compareUri (scanProjects appProjects name) tag.Commit.ShortID src] ∧
      (debug = false → fx0.stdout = []) := by
  generalize hrun : main env apiKey ⟨name, debug, src, dst⟩ = o
  simp only [main, getProjectId, getVersion, getTag, compareBranches,
    httpGet_ok env apiKey _ _ _ _ n1 h1, httpGet_ok env apiKey _ _ _ _ n2 h2,
    httpGet_ok env apiKey _ _ _ _ n3 h3, httpGet_ok env apiKey _ _ _ _ n4 h4,
    httpGet_ok env apiKey _ _ _ _ n5 h5, Outcome.andThen, d1, d2, d3, d4, d5] at hrun
  subst hrun
  refine ⟨_, rfl, ?_, ?_⟩
  · cases debug <;>
      simp [debugPrint_requests, debugTitles_requests, print_requests, debugPrint]
  · intro hd
    subst hd
    simp [debugPrint]

/-- The run up to the comparison request, whatever the two project ids are. -/
theorem main_reaches_compare (env : Env) (apiKey name : String) (debug : Bool)
    (src dst : String) (s1 s2 s3 s4 : Nat) (b1 b2 b3 b4 : String)
    (cdProjects appProjects : List ProjectsJson) (chart : ChartYaml)
    (tag : TagResponse) (tags : List TagResponse)
    (n1 : env.newRequest (projectsUri ("cd-" ++ name)) = true)
    (h1 : env.roundTrip apiKey (projectsUri ("cd-" ++ name)) = some ⟨s1, some b1⟩)
    (d1 : env.decodeProjects b1 = some cdProjects)
    (n2 : env.newRequest (projectsUri name) = true)
    (h2 : env.roundTrip apiKey (projectsUri name) = some ⟨s2, some b2⟩)
    (d2 : env.decodeProjects b2 = some appProjects)
    (n3 : env.newRequest (versionUri (scanProjects cdProjects ("cd-" ++ name)) name dst) = true)
    (h3 : env.roundTrip apiKey (versionUri (scanProjects cdProjects ("cd-" ++ name)) name dst)
      = some ⟨s3, some b3⟩)
    (d3 : env.decodeChart b3 = some chart)
    (n4 : env.newRequest
      (tagsUri (scanProjects appProjects name) (name ++ "_v" ++ chart.Version)) = true)
    (h4 : env.roundTrip apiKey
      (tagsUri (scanProjects appProjects name) (name ++ "_v" ++ chart.Version))
      = some ⟨s4, some b4⟩)
    (d4 : env.decodeTags b4 = some (tag :: tags))
    (n5 : env.newRequest
      (compareUri (scanProjects appProjects name) tag.Commit.ShortID src) = true) :
    [projectsUri ("cd-" ++ name), projectsUri name,
        versionUri (scanProjects cdProjects ("cd-" ++ name)) name dst,
        tagsUri (scanProjects appProjects name) (name ++ "_v" ++ chart.Version),
        compareUri (scanProjects appProjects name) tag.Commit.ShortID src]
      <+: (main env apiKey ⟨name, debug, src, dst⟩).effects.requests := by
  simp only [main, getProjectId, getVersion, getTag, httpGet_ok env apiKey _ _ _ _ n1 h1,
    httpGet_ok env apiKey _ _ _ _ n2 h2, httpGet_ok env apiKey _ _ _ _ n3 h3,
    httpGet_ok env apiKey _ _ _ _ n4 h4, andThen_done, d1, d2, d3, d4]
  apply andThen_requests
  · rw [compareBranches_requests _ _ _ _ _ _ n5]
    cases debug <;> simp [debugPrint, print]
  · intro compare fx10 h10
    simp only [Outcome.effects, printReport_requests]
    cases debug
    · simp [h10]
    · simp [debugTitles_requests, print_requests, h10]

/-! ## Ticket extraction -/

/-- C1, as the claim states it, fails: the title `Set retries to -1 (ABC-42)`
contains the substring `ABC-42`, which matches `\w+-\d+` and is where the
leftmost match of `\w+-\d+` lies, but the extraction of `main` returns `-1`,
which is no match of `\w+-\d+`. -/
theorem extractTicket_not_wordy :
    Occurs 1 "Set retries to -1 (ABC-42)".data ∧
      find wordyRegex "Set retries to -1 (ABC-42)".data = some "ABC-42".data ∧
      extractTicket "Set retries to -1 (ABC-42)" = some "-1" ∧
      ¬ IsTicketText 1 "-1".data := by
  refine ⟨⟨"Set retries to -1 (".data, "ABC-42".data, ")".data, by decide,
    "ABC".data, "42".data, by decide, by decide, by decide, by decide, by decide⟩,
    by decide, by decide, ?_⟩
  rintro ⟨w, d, h, hlen, hw, -, -⟩
  have e : "-1".data = ['-', '1'] := rfl
  rw [e] at h
  cases w with
  | nil => simp at hlen
  | cons a as =>
    simp at h
    have := hw a (List.mem_cons_self _ _)
    rw [← h.1, isWord_hyphen] at this
    exact Bool.noConfusion this

/-- C1 (amended): for every commit title that contains a substring matching
`\w*-\d+` (zero or more word characters, a hyphen, one or more digits), the
extraction of `main` returns such a substring, the leftmost one (no other
occurrence starts before it), taken greedily (no digit follows it), and
nothing else. -/
theorem extractTicket_leftmost (title : String) (h : Occurs 0 title.data) :
    ∃ pre m post, title.data = pre ++ m ++ post ∧ IsTicketText 0 m ∧
      extractTicket title = some (String.mk m) ∧
      (∀ pre2 m2 post2, title.data = pre2 ++ m2 ++ post2 → IsTicketText 0 m2 →
        pre.length ≤ pre2.length) ∧
      (∀ c, post.head? = some c → isDigit c = false) := by
  obtain ⟨pre, m, post, hs, hm, hfind, hleft, hpost⟩ := find_spec title.data h
  refine ⟨pre, m, post, hs, hm, ?_, hleft, hpost⟩
  rw [extractTicket_eq, hfind]
  rfl

/-- C1 (amended) at the title `ABC-42: fix login bug`. -/
theorem extractTicket_leftmost_witness :
    Occurs 0 "ABC-42: fix login bug".data ∧
      ∃ pre m post, "ABC-42: fix login bug".data = pre ++ m ++ post ∧ IsTicketText 0 m ∧
        extractTicket "ABC-42: fix login bug" = some (String.mk m) ∧
        (∀ pre2 m2 post2, "ABC-42: fix login bug".data = pre2 ++ m2 ++ post2 →
          IsTicketText 0 m2 → pre.length ≤ pre2.length) ∧
        (∀ c, post.head? = some c → isDigit c = false) :=
  have hocc : Occurs 0 "ABC-42: fix login bug".data :=
    ⟨[], "ABC-42".data, ": fix login bug".data, by decide,
      "ABC".data, "42".data, by decide, by decide, by decide, by decide, by decide⟩
  ⟨hocc, extractTicket_leftmost "ABC-42: fix login bug" hocc⟩

/-- C2, as the claim states it, fails: the title `Set retries to -1` contains
no substring matching `\w+-\d+` (nowhere does a word character stand before a
hyphen that a digit follows), but the extraction of `main` reports the match
`-1` and the title contributes a ticket line. -/
theorem extractTicket_bare_hyphen :
    ¬ Occurs 1 "Set retries to -1".data ∧
      find wordyRegex "Set retries to -1".data = none ∧
      extractTicket "Set retries to -1" = some "-1" ∧
      (printTickets [⟨"Set retries to -1"⟩] ⟨[], []⟩).stdout =
        ["[-1|https://mediciventures.atlassian.net/browse/-1]\n"] := by
  refine ⟨?_, by decide, by decide, by decide⟩
  intro h
  have := occurs_one_hasWordHyphenDigit _ h
  revert this
  decide

/-- C2 (amended): for every commit title that contains no substring matching
`\w*-\d+` (no hyphen immediately followed by a digit), the extraction of `main`
reports no match, and the title contributes no line to the ticket section:
the second loop prints the same with the commit as without it. -/
theorem extractTicket_none (title : String) (h : ¬ Occurs 0 title.data) :
    extractTicket title = none ∧
      ∀ (before after : List Commit) (fx : Effects),
        printTickets (before ++ ⟨title⟩ :: after) fx = printTickets (before ++ after) fx := by
  have hnone : extractTicket title = none := by
    rw [extractTicket_eq, find_none_of_not_occurs _ h]
    rfl
  exact ⟨hnone, printTickets_skip title hnone⟩

/-- C2 (amended) at the title `chore - bump deps`, a lone hyphen without a
digit. -/
theorem extractTicket_none_witness :
    ¬ Occurs 0 "chore - bump deps".data ∧
      (extractTicket "chore - bump deps" = none ∧
        ∀ (before after : List Commit) (fx : Effects),
          printTickets (before ++ ⟨"chore - bump deps"⟩ :: after) fx =
            printTickets (before ++ after) fx) :=
  have hno : ¬ Occurs 0 "chore - bump deps".data := by
    intro h
    obtain ⟨_, m, _, _, _, hfind, _⟩ := find_spec _ h
    have hnone : find ticketRegex "chore - bump deps".data = none := by decide
    rw [hnone] at hfind
    exact Option.noConfusion hfind
  ⟨hno, extractTicket_none "chore - bump deps" hno⟩

/-- C9: ticket extraction is idempotent and deterministic: when the extraction
of `main` yields the ticket `t` on the title `s`, the same extraction on `t`
matches and yields `t` again, and every run on `s` yields `t`. -/
theorem extractTicket_idempotent (s t : String) (h : extractTicket s = some t) :
    extractTicket t = some t ∧ ∀ r, extractTicket s = some r → r = t := by
  refine ⟨?_, fun r hr => by rw [h] at hr; exact (Option.some.inj hr).symm⟩
  rw [extractTicket_eq] at h
  cases hf : find ticketRegex s.data with
  | none => rw [hf] at h; exact Option.noConfusion h
  | some m =>
    rw [hf] at h
    have ht : t = String.mk m := (Option.some.inj h).symm
    subst ht
    rw [extractTicket_eq]
    show (find ticketRegex m).map String.mk = some (String.mk m)
    rw [find_text m (find_some_occurs _ _ hf).1]
    rfl

/-- C9 at the title `ABC-42: fix login bug`, whose ticket is `ABC-42`. -/
theorem extractTicket_idempotent_witness :
    extractTicket "ABC-42: fix login bug" = some "ABC-42" ∧
      (extractTicket "ABC-42" = some "ABC-42" ∧
        ∀ r, extractTicket "ABC-42: fix login bug" = some r → r = "ABC-42") :=
  ⟨by decide, extractTicket_idempotent "ABC-42: fix login bug" "ABC-42" (by decide)⟩

/-- C10: the extraction of `main` produces a ticket if and only if the title
contains a hyphen immediately followed by an ASCII digit; the ticket then is
the maximal (possibly empty) run of word characters right before the first
such hyphen, that hyphen, and the maximal run of digits right after it; it
contains exactly one hyphen and ends in a digit. -/
theorem extractTicket_shape (title : String) :
    (extractTicket title ≠ none ↔
        ∃ pre x post, title.data = pre ++ '-' :: x :: post ∧ isDigit x = true) ∧
      (∀ pre x post, title.data = pre ++ '-' :: x :: post → isDigit x = true →
        (∀ p y q, title.data = p ++ '-' :: y :: q → isDigit y = true →
          pre.length ≤ p.length) →
        extractTicket title =
          some (String.mk (pre.rtakeWhile isWord ++ '-' :: (x :: post).takeWhile isDigit))) ∧
      (∀ t, extractTicket title = some t →
        t.data.count '-' = 1 ∧ ∃ c, t.data.getLast? = some c ∧ isDigit c = true) := by
  refine ⟨?_, ?_, ?_⟩
  · rw [← occurs_zero_iff, extractTicket_eq]
    constructor
    · intro hne
      cases hf : find ticketRegex title.data with
      | none => rw [hf] at hne; exact absurd rfl hne
      | some m => exact (find_some_occurs _ _ hf).2
    · intro hocc
      obtain ⟨_, m, _, _, _, hfind, _⟩ := find_spec _ hocc
      rw [hfind]
      simp
  · intro pre x post hs hx hfirst
    rw [extractTicket_eq, hs, find_first x post hx pre (by rw [← hs]; exact hfirst)]
    rfl
  · intro t ht
    rw [extractTicket_eq] at ht
    cases hf : find ticketRegex title.data with
    | none => rw [hf] at ht; exact Option.noConfusion ht
    | some m =>
      rw [hf] at ht
      have : t = String.mk m := (Option.some.inj ht).symm
      subst this
      exact ticketText_hyphens m (find_some_occurs _ _ hf).1

/-- C10 at the title `fix: a-b-12-3 x-9`: the first hyphen has no digit after
it, the second one has, and the ticket is `b-12`. -/
theorem extractTicket_shape_witness :
    extractTicket "fix: a-b-12-3 x-9" = some "b-12" ∧
      extractTicket "fix: a-b-12-3 x-9" ≠ none ∧
      ("b-12".data.count '-' = 1 ∧ ∃ c, "b-12".data.getLast? = some c ∧ isDigit c = true) :=
  have h := extractTicket_shape "fix: a-b-12-3 x-9"
  have hex : extractTicket "fix: a-b-12-3 x-9" = some "b-12" := by
    have h2 := h.2.1 "fix: a-b".data '1' "2-3 x-9".data (by decide) (by decide)
      (by
        intro p y q hs hy
        by_contra hlt
        have hlen : "fix: a-b".data.length = 8 := by decide
        have hk : ∀ k < 8, ¬ ("fix: a-b-12-3 x-9".data[k]? = some '-' ∧
            ("fix: a-b-12-3 x-9".data[k + 1]?).map isDigit = some true) := by decide
        apply hk p.length (by omega)
        obtain ⟨h1, h2⟩ := getElem_at_split p '-' y q
        rw [hs, h1, h2]
        simp [hy])
    rw [h2]
    decide
  ⟨hex, h.1.mpr ⟨"fix: a-b".data, '1', "2-3 x-9".data, by decide, by decide⟩, h.2.2 "b-12" hex⟩

/-! ## Project lookup -/

/-- C3: for every decoded list of candidates and every query name, the scan of
`getProjectId` returns the `ID` of the last candidate whose `Name` equals the
query, when there is one, and 0 when no candidate has the query as its `Name`,
whatever the names contain; `getProjectId` returns what the scan returns. -/
theorem scanProjects_spec (projectsJson : List ProjectsJson) (projectName : String) :
    (∀ before c after, projectsJson = before ++ c :: after → c.Name = projectName →
        (∀ d ∈ after, d.Name ≠ projectName) → scanProjects projectsJson projectName = c.ID) ∧
      ((∀ c ∈ projectsJson, c.Name ≠ projectName) → scanProjects projectsJson projectName = 0) ∧
      (∀ env apiKey fx status body, env.newRequest (projectsUri projectName) = true →
        env.roundTrip apiKey (projectsUri projectName) = some ⟨status, some body⟩ →
        env.decodeProjects body = some projectsJson →
        getProjectId env apiKey projectName fx =
          .done (scanProjects projectsJson projectName)
            { fx with requests := fx.requests ++ [projectsUri projectName] }) := by
  refine ⟨?_, ?_, ?_⟩
  · intro before c after hsplit hc hafter
    subst hsplit
    unfold scanProjects
    rw [List.foldl_append, List.foldl_cons, if_pos hc]
    exact foldl_no_match projectName after c.ID hafter
  · intro hnone
    exact foldl_no_match projectName projectsJson 0 hnone
  · intro env apiKey fx status body hnew hresp hdec
    simp [getProjectId, httpGet_ok env apiKey _ fx status body hnew hresp, Outcome.andThen, hdec]

/-- C3 on three candidates, two of them named `widget`: the last one wins, and
the query `wid`, which every name contains and none equals, yields 0. -/
theorem scanProjects_spec_witness :
    scanProjects [⟨101, "widget"⟩, ⟨202, "cd-widget"⟩, ⟨303, "widget"⟩] "widget" = 303 ∧
      scanProjects [⟨101, "widget"⟩, ⟨202, "cd-widget"⟩, ⟨303, "widget"⟩] "wid" = 0 :=
  ⟨(scanProjects_spec [⟨101, "widget"⟩, ⟨202, "cd-widget"⟩, ⟨303, "widget"⟩] "widget").1
      [⟨101, "widget"⟩, ⟨202, "cd-widget"⟩] ⟨303, "widget"⟩ [] rfl rfl (by simp),
    (scanProjects_spec [⟨101, "widget"⟩, ⟨202, "cd-widget"⟩, ⟨303, "widget"⟩] "wid").2.1
      (by decide)⟩

/-! ## The report -/

/-- C6: for every list of compared commits, the report part of `main` writes
exactly: the line `*Commit Messages*`, one line `* <title>` per commit in list
order, an empty line, `----------`, an empty line, `*JIRA Tickets*`, and, in
the same order, one line `[t|https://mediciventures.atlassian.net/browse/t]`
for each commit whose title matches, with `t` the match that `FindString`
returns; it issues no request. On the titles `ABC-42: fix login bug` and
`chore: bump deps` that is two bullets and one ticket line, for `ABC-42`. -/
theorem printReport_stdout (compare : Compare) (fx : Effects) :
    (printReport compare fx).stdout =
        fx.stdout ++ ["*Commit Messages*\n"]
          ++ compare.Commits.map (fun c => "* " ++ c.Title ++ "\n")
          ++ ["\n", "----------\n", "\n", "*JIRA Tickets*\n"]
          ++ compare.Commits.filterMap (fun c => (extractTicket c.Title).map (fun t =>
              "[" ++ t ++ "|https://mediciventures.atlassian.net/browse/" ++ t ++ "]\n")) ∧
      (printReport compare fx).requests = fx.requests ∧
      (printReport ⟨[⟨"ABC-42: fix login bug"⟩, ⟨"chore: bump deps"⟩]⟩ ⟨[], []⟩).stdout =
        ["*Commit Messages*\n", "* ABC-42: fix login bug\n", "* chore: bump deps\n", "\n",
          "----------\n", "\n", "*JIRA Tickets*\n",
          "[ABC-42|https://mediciventures.atlassian.net/browse/ABC-42]\n"] := by
  refine ⟨?_, printReport_requests compare fx, by decide⟩
  rw [printReport_lines]
  rfl

/-! ## The pipeline -/

/-- C7: for every application name, source branch and target branch and every
remote that answers the calls of the run successfully, `main` issues exactly
five requests, in this order: the project search for `"cd-" ++ name`; the
project search for `name`; the manifest of `name`, at the target branch, in
the project whose id the first search resolved (the CD project); the tag
search for `name ++ "_v" ++ version` in the project whose id the second search
resolved (the application project, not the CD project); the comparison in
the application project from the short id of the first tag returned to the
source branch. It then writes the report of the commits compared, after what
the debug trace wrote, which is nothing without `-d`. -/
theorem main_threads (env : Env) (apiKey : String) (args : Args)
    (s1 s2 s3 s4 s5 : Nat) (b1 b2 b3 b4 b5 : String)
    (cdProjects appProjects : List ProjectsJson) (cdId appId : Int) (chart : ChartYaml)
    (tag : TagResponse) (tags : List TagResponse) (compare : Compare)
    (n1 : env.newRequest
      ("https://gitlab.com/api/v4/projects?simple=true&membership=true&search="
        ++ ("cd-" ++ args.projectName)) = true)
    (h1 : env.roundTrip apiKey
      ("https://gitlab.com/api/v4/projects?simple=true&membership=true&search="
        ++ ("cd-" ++ args.projectName)) = some ⟨s1, some b1⟩)
    (d1 : env.decodeProjects b1 = some cdProjects)
    (hcd : scanProjects cdProjects ("cd-" ++ args.projectName) = cdId)
    (n2 : env.newRequest
      ("https://gitlab.com/api/v4/projects?simple=true&membership=true&search="
        ++ args.projectName) = true)
    (h2 : env.roundTrip apiKey
      ("https://gitlab.com/api/v4/projects?simple=true&membership=true&search="
        ++ args.projectName) = some ⟨s2, some b2⟩)
    (d2 : env.decodeProjects b2 = some appProjects)
    (happ : scanProjects appProjects args.projectName = appId)
    (n3 : env.newRequest
      ("https://gitlab.com/api/v4/projects/" ++ toString cdId ++ "/repository/files/"
        ++ args.projectName ++ "%2FChart%2Eyaml/raw?ref=" ++ args.cdTargetBranch) = true)
    (h3 : env.roundTrip apiKey
      ("https://gitlab.com/api/v4/projects/" ++ toString cdId ++ "/repository/files/"
        ++ args.projectName ++ "%2FChart%2Eyaml/raw?ref=" ++ args.cdTargetBranch)
      = some ⟨s3, some b3⟩)
    (d3 : env.decodeChart b3 = some chart)
    (n4 : env.newRequest
      ("https://gitlab.com/api/v4/projects/" ++ toString appId ++ "/repository/tags?search="
        ++ (args.projectName ++ "_v" ++ chart.Version)) = true)
    (h4 : env.roundTrip apiKey
      ("https://gitlab.com/api/v4/projects/" ++ toString appId ++ "/repository/tags?search="
        ++ (args.projectName ++ "_v" ++ chart.Version)) = some ⟨s4, some b4⟩)
    (d4 : env.decodeTags b4 = some (tag :: tags))
    (n5 : env.newRequest
      ("https://gitlab.com/api/v4/projects/" ++ toString appId ++ "/repository/compare?from="
        ++ tag.Commit.ShortID ++ "&to=" ++ args.appSourceBranch) = true)
    (h5 : env.roundTrip apiKey
      ("https://gitlab.com/api/v4/projects/" ++ toString appId ++ "/repository/compare?from="
        ++ tag.Commit.ShortID ++ "&to=" ++ args.appSourceBranch) = some ⟨s5, some b5⟩)
    (d5 : env.decodeCompare b5 = some compare) :
    ∃ fx before, main env apiKey args = .done () fx ∧
      fx.requests =
        ["https://gitlab.com/api/v4/projects?simple=true&membership=true&search="
            ++ ("cd-" ++ args.projectName),
          "https://gitlab.com/api/v4/projects?simple=true&membership=true&search="
            ++ args.projectName,
          "https://gitlab.com/api/v4/projects/" ++ toString cdId ++ "/repository/files/"
            ++ args.projectName ++ "%2FChart%2Eyaml/raw?ref=" ++ args.cdTargetBranch,
          "https://gitlab.com/api/v4/projects/" ++ toString appId ++ "/repository/tags?search="
            ++ (args.projectName ++ "_v" ++ chart.Version),
          "https://gitlab.com/api/v4/projects/" ++ toString appId ++ "/repository/compare?from="
            ++ tag.Commit.ShortID ++ "&to=" ++ args.appSourceBranch] ∧
      fx.stdout =
        before ++ ["*Commit Messages*\n"]
          ++ compare.Commits.map (fun c => "* " ++ c.Title ++ "\n")
          ++ ["\n", "----------\n", "\n", "*JIRA Tickets*\n"]
          ++ compare.Commits.filterMap (fun c => (extractTicket c.Title).map (fun t =>
              "[" ++ t ++ "|https://mediciventures.atlassian.net/browse/" ++ t ++ "]\n")) ∧
      (args.debug = false → before = []) := by
  obtain ⟨name, debug, src, dst⟩ := args
  subst hcd happ
  obtain ⟨fx0, hrun, hreq, hout⟩ := main_run env apiKey name debug src dst s1 s2 s3 s4 s5
    b1 b2 b3 b4 b5 cdProjects appProjects chart tag tags compare
    n1 h1 d1 n2 h2 d2 n3 h3 d3 n4 h4 d4 n5 h5 d5
  refine ⟨printReport compare fx0, fx0.stdout, hrun, ?_, ?_, hout⟩
  · rw [printReport_requests, hreq]
    rfl
  · rw [printReport_lines]
    rfl

/-- C7 in the end-to-end scenario: name `widget`, application project 101, CD
project 202, version `4.0.1`. The manifest is requested in project 202, the
tags `widget_v4.0.1` and the comparison `abc123d` to `master` in project
101. -/
theorem main_threads_witness :
    ∃ fx, main widgetEnv "token" widgetArgs = .done () fx ∧
      fx.requests =
        ["https://gitlab.com/api/v4/projects?simple=true&membership=true&search=cd-widget",
          "https://gitlab.com/api/v4/projects?simple=true&membership=true&search=widget",
          "https://gitlab.com/api/v4/projects/202/repository/files/widget%2FChart%2Eyaml/raw?ref=production",
          "https://gitlab.com/api/v4/projects/101/repository/tags?search=widget_v4.0.1",
          "https://gitlab.com/api/v4/projects/101/repository/compare?from=abc123d&to=master"] ∧
      fx.stdout =
        ["*Commit Messages*\n", "* ABC-42: fix login bug\n", "* chore: bump deps\n", "\n",
          "----------\n", "\n", "*JIRA Tickets*\n",
          "[ABC-42|https://mediciventures.atlassian.net/browse/ABC-42]\n"] := by
  obtain ⟨fx, before, hrun, hreq, hout, hbefore⟩ :=
    main_threads widgetEnv "token" widgetArgs 200 200 200 200 200
      projectsBody projectsBody chartBody tagsBody compareBody
      [⟨101, "widget"⟩, ⟨202, "cd-widget"⟩] [⟨101, "widget"⟩, ⟨202, "cd-widget"⟩] 202 101
      ⟨"4.0.1"⟩ ⟨"widget_v4.0.1", ⟨"abc123d"⟩⟩ []
      ⟨[⟨"ABC-42: fix login bug"⟩, ⟨"chore: bump deps"⟩]⟩
      rfl (by decide) (by decide) (by decide) rfl (by decide) (by decide) (by decide)
      rfl (by decide) (by decide) rfl (by decide) (by decide) rfl (by decide) (by decide)
  refine ⟨fx, hrun, ?_, ?_⟩
  · rw [hreq]; decide
  · rw [hout, hbefore rfl]; decide

/-- C4 on the code: for every run in which the tag search decodes to an empty
list, `getTag` returns no commit id and the run stops there, no comparison is
requested and no line of the report is written; but it stops in the runtime
panic of the index expression `tagResponse[0]` (index 0, length 0), not in a
`log.Fatal` of the program. -/
theorem main_empty_tags (env : Env) (apiKey : String) (args : Args)
    (s1 s2 s3 s4 : Nat) (b1 b2 b3 b4 : String)
    (cdProjects appProjects : List ProjectsJson) (cdId appId : Int) (chart : ChartYaml)
    (n1 : env.newRequest
      ("https://gitlab.com/api/v4/projects?simple=true&membership=true&search="
        ++ ("cd-" ++ args.projectName)) = true)
    (h1 : env.roundTrip apiKey
      ("https://gitlab.com/api/v4/projects?simple=true&membership=true&search="
        ++ ("cd-" ++ args.projectName)) = some ⟨s1, some b1⟩)
    (d1 : env.decodeProjects b1 = some cdProjects)
    (hcd : scanProjects cdProjects ("cd-" ++ args.projectName) = cdId)
    (n2 : env.newRequest
      ("https://gitlab.com/api/v4/projects?simple=true&membership=true&search="
        ++ args.projectName) = true)
    (h2 : env.roundTrip apiKey
      ("https://gitlab.com/api/v4/projects?simple=true&membership=true&search="
        ++ args.projectName) = some ⟨s2, some b2⟩)
    (d2 : env.decodeProjects b2 = some appProjects)
    (happ : scanProjects appProjects args.projectName = appId)
    (n3 : env.newRequest
      ("https://gitlab.com/api/v4/projects/" ++ toString cdId ++ "/repository/files/"
        ++ args.projectName ++ "%2FChart%2Eyaml/raw?ref=" ++ args.cdTargetBranch) = true)
    (h3 : env.roundTrip apiKey
      ("https://gitlab.com/api/v4/projects/" ++ toString cdId ++ "/repository/files/"
        ++ args.projectName ++ "%2FChart%2Eyaml/raw?ref=" ++ args.cdTargetBranch)
      = some ⟨s3, some b3⟩)
    (d3 : env.decodeChart b3 = some chart)
    (n4 : env.newRequest
      ("https://gitlab.com/api/v4/projects/" ++ toString appId ++ "/repository/tags?search="
        ++ (args.projectName ++ "_v" ++ chart.Version)) = true)
    (h4 : env.roundTrip apiKey
      ("https://gitlab.com/api/v4/projects/" ++ toString appId ++ "/repository/tags?search="
        ++ (args.projectName ++ "_v" ++ chart.Version)) = some ⟨s4, some b4⟩)
    (d4 : env.decodeTags b4 = some []) :
    ∃ fx, main env apiKey args = .abort (.indexOutOfRange 0 0) fx ∧
      fx.requests =
        ["https://gitlab.com/api/v4/projects?simple=true&membership=true&search="
            ++ ("cd-" ++ args.projectName),
          "https://gitlab.com/api/v4/projects?simple=true&membership=true&search="
            ++ args.projectName,
          "https://gitlab.com/api/v4/projects/" ++ toString cdId ++ "/repository/files/"
            ++ args.projectName ++ "%2FChart%2Eyaml/raw?ref=" ++ args.cdTargetBranch,
          "https://gitlab.com/api/v4/projects/" ++ toString appId ++ "/repository/tags?search="
            ++ (args.projectName ++ "_v" ++ chart.Version)] ∧
      fx.stdout =
        (if args.debug then
          ["projectName: " ++ args.projectName ++ "\n", "apiKey: " ++ apiKey ++ "\n",
            "appSourceBranch: " ++ args.appSourceBranch ++ "\n",
            "cdTargetBranch: " ++ args.cdTargetBranch ++ "\n",
            "cdProjectId: " ++ toString cdId ++ "\n",
            "appProjectId: " ++ toString appId ++ "\n",
            "deployedVersion: " ++ chart.Version ++ "\n"]
        else []) := by
  obtain ⟨name, debug, src, dst⟩ := args
  subst hcd happ
  have m1 : env.newRequest (projectsUri ("cd-" ++ name)) = true := n1
  have k1 : env.roundTrip apiKey (projectsUri ("cd-" ++ name)) = some ⟨s1, some b1⟩ := h1
  have m2 : env.newRequest (projectsUri name) = true := n2
  have k2 : env.roundTrip apiKey (projectsUri name) = some ⟨s2, some b2⟩ := h2
  have m3 : env.newRequest (versionUri (scanProjects cdProjects ("cd-" ++ name)) name dst)
      = true := n3
  have k3 : env.roundTrip apiKey (versionUri (scanProjects cdProjects ("cd-" ++ name)) name dst)
      = some ⟨s3, some b3⟩ := h3
  have m4 : env.newRequest
      (tagsUri (scanProjects appProjects name) (name ++ "_v" ++ chart.Version)) = true := n4
  have k4 : env.roundTrip apiKey
      (tagsUri (scanProjects appProjects name) (name ++ "_v" ++ chart.Version))
      = some ⟨s4, some b4⟩ := h4
  generalize hrun : main env apiKey ⟨name, debug, src, dst⟩ = o
  simp only [main, getProjectId, getVersion, getTag,
    httpGet_ok env apiKey _ _ _ _ m1 k1, httpGet_ok env apiKey _ _ _ _ m2 k2,
    httpGet_ok env apiKey _ _ _ _ m3 k3, httpGet_ok env apiKey _ _ _ _ m4 k4,
    Outcome.andThen, d1, d2, d3, d4] at hrun
  subst hrun
  refine ⟨_, rfl, ?_, ?_⟩
  · cases debug <;>
      simp [debugPrint_requests, print_requests, debugPrint, projectsUri, versionUri, tagsUri]
  · cases debug <;> simp [debugPrint, print]

/-- C4 at the failing input: the scenario of `widget` with the tag search
answered by `[]`. The run ends in the index panic after four requests, with
nothing written. -/
theorem main_empty_tags_witness :
    noTagEnv.decodeTags "[]" = some [] ∧
      ∃ fx, main noTagEnv "token" widgetArgs = .abort (.indexOutOfRange 0 0) fx ∧
        fx.requests =
          ["https://gitlab.com/api/v4/projects?simple=true&membership=true&search=cd-widget",
            "https://gitlab.com/api/v4/projects?simple=true&membership=true&search=widget",
            "https://gitlab.com/api/v4/projects/202/repository/files/widget%2FChart%2Eyaml/raw?ref=production",
            "https://gitlab.com/api/v4/projects/101/repository/tags?search=widget_v4.0.1"] ∧
        fx.stdout = [] := by
  obtain ⟨fx, hrun, hreq, hout⟩ := main_empty_tags noTagEnv "token" widgetArgs 200 200 200 200
    projectsBody projectsBody chartBody "[]"
    [⟨101, "widget"⟩, ⟨202, "cd-widget"⟩] [⟨101, "widget"⟩, ⟨202, "cd-widget"⟩] 202 101
    ⟨"4.0.1"⟩
    rfl (by decide) (by decide) (by decide) rfl (by decide) (by decide) (by decide)
    rfl (by decide) (by decide) rfl (by decide) (by decide)
  refine ⟨by decide, fx, hrun, ?_, ?_⟩
  · rw [hreq]; decide
  · rw [hout]; rfl

/-- C5, as the claim states it, fails: when no project is named `cd-widget` or
`widget`, both lookups return 0 and the run goes on: `getVersion` and `getTag`
are executed, with project id 0, and the run stops only when the answer to the
tag search does not decode. -/
theorem main_unresolved_goes_on :
    getProjectId unknownProjectEnv "token" "cd-widget" ⟨[], []⟩ =
        .done 0
          ⟨[], ["https://gitlab.com/api/v4/projects?simple=true&membership=true&search=cd-widget"]⟩ ∧
      getProjectId unknownProjectEnv "token" "widget" ⟨[], []⟩ =
        .done 0
          ⟨[], ["https://gitlab.com/api/v4/projects?simple=true&membership=true&search=widget"]⟩ ∧
      main unknownProjectEnv "token" widgetArgs =
        .abort (.fatal .decode)
          ⟨[], ["https://gitlab.com/api/v4/projects?simple=true&membership=true&search=cd-widget",
            "https://gitlab.com/api/v4/projects?simple=true&membership=true&search=widget",
            "https://gitlab.com/api/v4/projects/0/repository/files/widget%2FChart%2Eyaml/raw?ref=production",
            "https://gitlab.com/api/v4/projects/0/repository/tags?search=widget_v"]⟩ := by
  refine ⟨?_, ?_, ?_⟩ <;> decide

/-- C5 (amended): for every run in which a project lookup returns an
unresolved identifier, `main` does not stop at that point: it makes no check
of what the lookups return. Whatever the two identifiers are, 0 included:
`getVersion` is executed with the CD project id (its request is the third of
the run, unless `http.NewRequest` refuses its URI, which is fatal inside
`getVersion`); when the manifest is fetched and decoded, `getTag` is executed
with the application project id; when a tag is found, `compareBranches` is
executed with the application project id; and when the comparison decodes,
the run ends with the report printed. -/
theorem main_unresolved_continues (env : Env) (apiKey : String) (args : Args)
    (s1 s2 : Nat) (b1 b2 : String) (cdProjects appProjects : List ProjectsJson)
    (cdId appId : Int)
    (n1 : env.newRequest
      ("https://gitlab.com/api/v4/projects?simple=true&membership=true&search="
        ++ ("cd-" ++ args.projectName)) = true)
    (h1 : env.roundTrip apiKey
      ("https://gitlab.com/api/v4/projects?simple=true&membership=true&search="
        ++ ("cd-" ++ args.projectName)) = some ⟨s1, some b1⟩)
    (d1 : env.decodeProjects b1 = some cdProjects)
    (hcd : scanProjects cdProjects ("cd-" ++ args.projectName) = cdId)
    (n2 : env.newRequest
      ("https://gitlab.com/api/v4/projects?simple=true&membership=true&search="
        ++ args.projectName) = true)
    (h2 : env.roundTrip apiKey
      ("https://gitlab.com/api/v4/projects?simple=true&membership=true&search="
        ++ args.projectName) = some ⟨s2, some b2⟩)
    (d2 : env.decodeProjects b2 = some appProjects)
    (happ : scanProjects appProjects args.projectName = appId) :
    (env.newRequest
        ("https://gitlab.com/api/v4/projects/" ++ toString cdId ++ "/repository/files/"
          ++ args.projectName ++ "%2FChart%2Eyaml/raw?ref=" ++ args.cdTargetBranch) = false →
      ∃ fx, main env apiKey args = .abort (.fatal .newRequest) fx ∧
        fx.requests =
          ["https://gitlab.com/api/v4/projects?simple=true&membership=true&search="
              ++ ("cd-" ++ args.projectName),
            "https://gitlab.com/api/v4/projects?simple=true&membership=true&search="
              ++ args.projectName]) ∧
    (env.newRequest
        ("https://gitlab.com/api/v4/projects/" ++ toString cdId ++ "/repository/files/"
          ++ args.projectName ++ "%2FChart%2Eyaml/raw?ref=" ++ args.cdTargetBranch) = true →
      ["https://gitlab.com/api/v4/projects?simple=true&membership=true&search="
            ++ ("cd-" ++ args.projectName),
          "https://gitlab.com/api/v4/projects?simple=true&membership=true&search="
            ++ args.projectName,
          "https://gitlab.com/api/v4/projects/" ++ toString cdId ++ "/repository/files/"
            ++ args.projectName ++ "%2FChart%2Eyaml/raw?ref=" ++ args.cdTargetBranch]
        <+: (main env apiKey args).effects.requests ∧
      ∀ (s3 : Nat) (b3 : String) (chart : ChartYaml),
        env.roundTrip apiKey
          ("https://gitlab.com/api/v4/projects/" ++ toString cdId ++ "/repository/files/"
            ++ args.projectName ++ "%2FChart%2Eyaml/raw?ref=" ++ args.cdTargetBranch)
          = some ⟨s3, some b3⟩ →
        env.decodeChart b3 = some chart →
        env.newRequest
          ("https://gitlab.com/api/v4/projects/" ++ toString appId
            ++ "/repository/tags?search=" ++ (args.projectName ++ "_v" ++ chart.Version))
          = true →
        ["https://gitlab.com/api/v4/projects?simple=true&membership=true&search="
              ++ ("cd-" ++ args.projectName),
            "https://gitlab.com/api/v4/projects?simple=true&membership=true&search="
              ++ args.projectName,
            "https://gitlab.com/api/v4/projects/" ++ toString cdId ++ "/repository/files/"
              ++ args.projectName ++ "%2FChart%2Eyaml/raw?ref=" ++ args.cdTargetBranch,
            "https://gitlab.com/api/v4/projects/" ++ toString appId
              ++ "/repository/tags?search=" ++ (args.projectName ++ "_v" ++ chart.Version)]
          <+: (main env apiKey args).effects.requests ∧
        ∀ (s4 : Nat) (b4 : String) (tag : TagResponse) (tags : List TagResponse),
          env.roundTrip apiKey
            ("https://gitlab.com/api/v4/projects/" ++ toString appId
              ++ "/repository/tags?search=" ++ (args.projectName ++ "_v" ++ chart.Version))
            = some ⟨s4, some b4⟩ →
          env.decodeTags b4 = some (tag :: tags) →
          env.newRequest
            ("https://gitlab.com/api/v4/projects/" ++ toString appId
              ++ "/repository/compare?from=" ++ tag.Commit.ShortID ++ "&to="
              ++ args.appSourceBranch) = true →
          ["https://gitlab.com/api/v4/projects?simple=true&membership=true&search="
                ++ ("cd-" ++ args.projectName),
              "https://gitlab.com/api/v4/projects?simple=true&membership=true&search="
                ++ args.projectName,
              "https://gitlab.com/api/v4/projects/" ++ toString cdId ++ "/repository/files/"
                ++ args.projectName ++ "%2FChart%2Eyaml/raw?ref=" ++ args.cdTargetBranch,
              "https://gitlab.com/api/v4/projects/" ++ toString appId
                ++ "/repository/tags?search=" ++ (args.projectName ++ "_v" ++ chart.Version),
              "https://gitlab.com/api/v4/projects/" ++ toString appId
                ++ "/repository/compare?from=" ++ tag.Commit.ShortID ++ "&to="
                ++ args.appSourceBranch]
            <+: (main env apiKey args).effects.requests ∧
          ∀ (s5 : Nat) (b5 : String) (compare : Compare),
            env.roundTrip apiKey
              ("https://gitlab.com/api/v4/projects/" ++ toString appId
                ++ "/repository/compare?from=" ++ tag.Commit.ShortID ++ "&to="
                ++ args.appSourceBranch) = some ⟨s5, some b5⟩ →
            env.decodeCompare b5 = some compare →
            ∃ fx before, main env apiKey args = .done () fx ∧
              fx.stdout =
                before ++ ["*Commit Messages*\n"]
                  ++ compare.Commits.map (fun c => "* " ++ c.Title ++ "\n")
                  ++ ["\n", "----------\n", "\n", "*JIRA Tickets*\n"]
                  ++ compare.Commits.filterMap (fun c => (extractTicket c.Title).map (fun t =>
                      "[" ++ t ++ "|https://mediciventures.atlassian.net/browse/" ++ t
                        ++ "]\n"))) := by
  obtain ⟨name, debug, src, dst⟩ := args
  subst hcd happ
  refine ⟨fun n3 => ?_, fun n3 => ⟨?_, fun s3 b3 chart h3 d3 n4 => ⟨?_,
    fun s4 b4 tag tags h4 d4 n5 => ⟨?_, fun s5 b5 compare h5 d5 => ?_⟩⟩⟩⟩
  · exact main_version_refused env apiKey name debug src dst s1 s2 b1 b2 cdProjects
      appProjects n1 h1 d1 n2 h2 d2 n3
  · exact main_reaches_version env apiKey name debug src dst s1 s2 b1 b2 cdProjects
      appProjects n1 h1 d1 n2 h2 d2 n3
  · exact main_reaches_tags env apiKey name debug src dst s1 s2 s3 b1 b2 b3 cdProjects
      appProjects chart n1 h1 d1 n2 h2 d2 n3 h3 d3 n4
  · exact main_reaches_compare env apiKey name debug src dst s1 s2 s3 s4 b1 b2 b3 b4
      cdProjects appProjects chart tag tags n1 h1 d1 n2 h2 d2 n3 h3 d3 n4 h4 d4 n5
  · obtain ⟨fx0, hrun, -, -⟩ := main_run env apiKey name debug src dst s1 s2 s3 s4 s5
      b1 b2 b3 b4 b5 cdProjects appProjects chart tag tags compare
      n1 h1 d1 n2 h2 d2 n3 h3 d3 n4 h4 d4 n5 h5 d5
    refine ⟨printReport compare fx0, fx0.stdout, hrun, ?_⟩
    rw [printReport_lines]
    rfl

/-- C5 (amended) in the scenario in which no project has the name asked for:
both lookups yield 0, and the manifest and then the tags are requested in
project 0. -/
theorem main_unresolved_continues_witness :
    scanProjects [] "cd-widget" = 0 ∧ scanProjects [] "widget" = 0 ∧
      ["https://gitlab.com/api/v4/projects?simple=true&membership=true&search=cd-widget",
          "https://gitlab.com/api/v4/projects?simple=true&membership=true&search=widget",
          "https://gitlab.com/api/v4/projects/0/repository/files/widget%2FChart%2Eyaml/raw?ref=production",
          "https://gitlab.com/api/v4/projects/0/repository/tags?search=widget_v"]
        <+: (main unknownProjectEnv "token" widgetArgs).effects.requests := by
  have h := (main_unresolved_continues unknownProjectEnv "token" widgetArgs 200 200 "[]" "[]"
    [] [] 0 0 rfl (by decide) (by decide) rfl rfl (by decide) (by decide) rfl).2 rfl
  have h4 := (h.2 404 notFoundBody ⟨""⟩ (by decide) (by decide) rfl).1
  refine ⟨rfl, rfl, ?_⟩
  have e : ["https://gitlab.com/api/v4/projects?simple=true&membership=true&search=cd-widget",
      "https://gitlab.com/api/v4/projects?simple=true&membership=true&search=widget",
      "https://gitlab.com/api/v4/projects/0/repository/files/widget%2FChart%2Eyaml/raw?ref=production",
      "https://gitlab.com/api/v4/projects/0/repository/tags?search=widget_v"]
      = ["https://gitlab.com/api/v4/projects?simple=true&membership=true&search="
            ++ ("cd-" ++ widgetArgs.projectName),
          "https://gitlab.com/api/v4/projects?simple=true&membership=true&search="
            ++ widgetArgs.projectName,
          "https://gitlab.com/api/v4/projects/" ++ toString (0 : Int) ++ "/repository/files/"
            ++ widgetArgs.projectName ++ "%2FChart%2Eyaml/raw?ref=" ++ widgetArgs.cdTargetBranch,
          "https://gitlab.com/api/v4/projects/" ++ toString (0 : Int)
            ++ "/repository/tags?search="
            ++ (widgetArgs.projectName ++ "_v" ++ (⟨""⟩ : ChartYaml).Version)] := by decide
  rw [e]
  exact h4

/-- C8, as the claim states it, fails: in the scenario of `widget` the
comparison is answered with status 404 and a body that decodes, an object
without the key `commits`; the call is no fatal error and the run prints a
report, of no commits. -/
theorem main_ignores_status :
    (compareNotFoundEnv.roundTrip "token"
        "https://gitlab.com/api/v4/projects/101/repository/compare?from=abc123d&to=master").map
        Response.StatusCode = some 404 ∧
      main compareNotFoundEnv "token" widgetArgs =
        .done ()
          ⟨["*Commit Messages*\n", "\n", "----------\n", "\n", "*JIRA Tickets*\n"],
            ["https://gitlab.com/api/v4/projects?simple=true&membership=true&search=cd-widget",
              "https://gitlab.com/api/v4/projects?simple=true&membership=true&search=widget",
              "https://gitlab.com/api/v4/projects/202/repository/files/widget%2FChart%2Eyaml/raw?ref=production",
              "https://gitlab.com/api/v4/projects/101/repository/tags?search=widget_v4.0.1",
              "https://gitlab.com/api/v4/projects/101/repository/compare?from=abc123d&to=master"]⟩ := by
  constructor <;> decide

/-- C8 (amended): none of the four remote calls reads the status of the
response: with every status code replaced, each call and the whole run do the
same. For a response of any status, each call is a fatal error that aborts the
run when the body does not decode, and the compare call returns the decoded
comparison when the body decodes; and when the five calls of a run are
answered with bodies that decode, whatever the five status codes are, the run
ends with the report of the decoded comparison printed. -/
theorem status_not_inspected (env : Env) (f : String → Nat → Nat) (apiKey : String) :
    (∀ name fx, getProjectId (withStatus env f) apiKey name fx = getProjectId env apiKey name fx) ∧
      (∀ projectId name ref fx, getVersion (withStatus env f) apiKey projectId name ref fx =
        getVersion env apiKey projectId name ref fx) ∧
      (∀ projectId tag fx, getTag (withStatus env f) apiKey projectId tag fx =
        getTag env apiKey projectId tag fx) ∧
      (∀ projectId src dst fx, compareBranches (withStatus env f) apiKey projectId src dst fx =
        compareBranches env apiKey projectId src dst fx) ∧
      (∀ args, main (withStatus env f) apiKey args = main env apiKey args) ∧
      (∀ name fx status body, env.newRequest (projectsUri name) = true →
        env.roundTrip apiKey (projectsUri name) = some ⟨status, some body⟩ →
        env.decodeProjects body = none →
        getProjectId env apiKey name fx =
          .abort (.fatal .decode) { fx with requests := fx.requests ++ [projectsUri name] }) ∧
      (∀ projectId name ref fx status body,
        env.newRequest (versionUri projectId name ref) = true →
        env.roundTrip apiKey (versionUri projectId name ref) = some ⟨status, some body⟩ →
        env.decodeChart body = none →
        getVersion env apiKey projectId name ref fx =
          .abort (.fatal .decode)
            { fx with requests := fx.requests ++ [versionUri projectId name ref] }) ∧
      (∀ projectId tag fx status body, env.newRequest (tagsUri projectId tag) = true →
        env.roundTrip apiKey (tagsUri projectId tag) = some ⟨status, some body⟩ →
        env.decodeTags body = none →
        getTag env apiKey projectId tag fx =
          .abort (.fatal .decode) { fx with requests := fx.requests ++ [tagsUri projectId tag] }) ∧
      (∀ projectId src dst fx status body,
        env.newRequest (compareUri projectId src dst) = true →
        env.roundTrip apiKey (compareUri projectId src dst) = some ⟨status, some body⟩ →
        env.decodeCompare body = none →
        compareBranches env apiKey projectId src dst fx =
          .abort (.fatal .decode)
            { fx with requests := fx.requests ++ [compareUri projectId src dst] }) ∧
      (∀ projectId src dst fx status body compare,
        env.newRequest (compareUri projectId src dst) = true →
        env.roundTrip apiKey (compareUri projectId src dst) = some ⟨status, some body⟩ →
        env.decodeCompare body = some compare →
        compareBranches env apiKey projectId src dst fx =
          .done compare { fx with requests := fx.requests ++ [compareUri projectId src dst] }) ∧
      (∀ (args : Args) (s1 s2 s3 s4 s5 : Nat) (b1 b2 b3 b4 b5 : String)
          (cdProjects appProjects : List ProjectsJson) (cdId appId : Int) (chart : ChartYaml)
          (tag : TagResponse) (tags : List TagResponse) (compare : Compare),
        env.newRequest
          ("https://gitlab.com/api/v4/projects?simple=true&membership=true&search="
            ++ ("cd-" ++ args.projectName)) = true →
        env.roundTrip apiKey
          ("https://gitlab.com/api/v4/projects?simple=true&membership=true&search="
            ++ ("cd-" ++ args.projectName)) = some ⟨s1, some b1⟩ →
        env.decodeProjects b1 = some cdProjects →
        scanProjects cdProjects ("cd-" ++ args.projectName) = cdId →
        env.newRequest
          ("https://gitlab.com/api/v4/projects?simple=true&membership=true&search="
            ++ args.projectName) = true →
        env.roundTrip apiKey
          ("https://gitlab.com/api/v4/projects?simple=true&membership=true&search="
            ++ args.projectName) = some ⟨s2, some b2⟩ →
        env.decodeProjects b2 = some appProjects →
        scanProjects appProjects args.projectName = appId →
        env.newRequest
          ("https://gitlab.com/api/v4/projects/" ++ toString cdId ++ "/repository/files/"
            ++ args.projectName ++ "%2FChart%2Eyaml/raw?ref=" ++ args.cdTargetBranch) = true →
        env.roundTrip apiKey
          ("https://gitlab.com/api/v4/projects/" ++ toString cdId ++ "/repository/files/"
            ++ args.projectName ++ "%2FChart%2Eyaml/raw?ref=" ++ args.cdTargetBranch)
          = some ⟨s3, some b3⟩ →
        env.decodeChart b3 = some chart →
        env.newRequest
          ("https://gitlab.com/api/v4/projects/" ++ toString appId
            ++ "/repository/tags?search=" ++ (args.projectName ++ "_v" ++ chart.Version))
          = true →
        env.roundTrip apiKey
          ("https://gitlab.com/api/v4/projects/" ++ toString appId
            ++ "/repository/tags?search=" ++ (args.projectName ++ "_v" ++ chart.Version))
          = some ⟨s4, some b4⟩ →
        env.decodeTags b4 = some (tag :: tags) →
        env.newRequest
          ("https://gitlab.com/api/v4/projects/" ++ toString appId
            ++ "/repository/compare?from=" ++ tag.Commit.ShortID ++ "&to="
            ++ args.appSourceBranch) = true →
        env.roundTrip apiKey
          ("https://gitlab.com/api/v4/projects/" ++ toString appId
            ++ "/repository/compare?from=" ++ tag.Commit.ShortID ++ "&to="
            ++ args.appSourceBranch) = some ⟨s5, some b5⟩ →
        env.decodeCompare b5 = some compare →
        ∃ fx before, main env apiKey args = .done () fx ∧
          fx.stdout =
            before ++ ["*Commit Messages*\n"]
              ++ compare.Commits.map (fun c => "* " ++ c.Title ++ "\n")
              ++ ["\n", "----------\n", "\n", "*JIRA Tickets*\n"]
              ++ compare.Commits.filterMap (fun c => (extractTicket c.Title).map (fun t =>
                  "[" ++ t ++ "|https://mediciventures.atlassian.net/browse/" ++ t
                    ++ "]\n")) ∧
          (args.debug = false → before = [])) := by
  have e1 : ∀ name fx, getProjectId (withStatus env f) apiKey name fx
      = getProjectId env apiKey name fx := by
    intro name fx
    simp only [getProjectId, httpGet_withStatus]
    rfl
  have e2 : ∀ projectId name ref fx, getVersion (withStatus env f) apiKey projectId name ref fx
      = getVersion env apiKey projectId name ref fx := by
    intro projectId name ref fx
    simp only [getVersion, httpGet_withStatus]
    rfl
  have e3 : ∀ projectId tag fx, getTag (withStatus env f) apiKey projectId tag fx
      = getTag env apiKey projectId tag fx := by
    intro projectId tag fx
    simp only [getTag, httpGet_withStatus]
    rfl
  have e4 : ∀ projectId src dst fx,
      compareBranches (withStatus env f) apiKey projectId src dst fx
        = compareBranches env apiKey projectId src dst fx := by
    intro projectId src dst fx
    simp only [compareBranches, httpGet_withStatus]
    rfl
  refine ⟨e1, e2, e3, e4, ?_, ?_, ?_, ?_, ?_, ?_, ?_⟩
  · intro args
    simp only [main, e1, e2, e3, e4]
    rfl
  · intro name fx status body hnew hresp hdec
    simp [getProjectId, httpGet_ok env apiKey _ fx status body hnew hresp, andThen_done, hdec]
  · intro projectId name ref fx status body hnew hresp hdec
    simp [getVersion, httpGet_ok env apiKey _ fx status body hnew hresp, andThen_done, hdec]
  · intro projectId tag fx status body hnew hresp hdec
    simp [getTag, httpGet_ok env apiKey _ fx status body hnew hresp, andThen_done, hdec]
  · intro projectId src dst fx status body hnew hresp hdec
    simp [compareBranches, httpGet_ok env apiKey _ fx status body hnew hresp, andThen_done, hdec]
  · intro projectId src dst fx status body compare hnew hresp hdec
    simp [compareBranches, httpGet_ok env apiKey _ fx status body hnew hresp, andThen_done, hdec]
  · intro args s1 s2 s3 s4 s5 b1 b2 b3 b4 b5 cdProjects appProjects cdId appId chart tag tags
      compare n1 h1 d1 hcd n2 h2 d2 happ n3 h3 d3 n4 h4 d4 n5 h5 d5
    obtain ⟨name, debug, src, dst⟩ := args
    subst hcd happ
    obtain ⟨fx0, hrun, -, hout⟩ := main_run env apiKey name debug src dst s1 s2 s3 s4 s5
      b1 b2 b3 b4 b5 cdProjects appProjects chart tag tags compare
      n1 h1 d1 n2 h2 d2 n3 h3 d3 n4 h4 d4 n5 h5 d5
    refine ⟨printReport compare fx0, fx0.stdout, hrun, ?_, hout⟩
    rw [printReport_lines]
    rfl

/-- C8 (amended) in the scenario of `widget`: the comparison answered with
status 404 returns the decoded comparison and the run ends with the report,
of no commits, printed; the run is the same with every status replaced by 200;
and a project search whose body is an error object, which does not decode to
a list, is fatal. -/
theorem status_not_inspected_witness :
    compareBranches compareNotFoundEnv "token" 101 "abc123d" "master" ⟨[], []⟩ =
        .done ⟨[]⟩
          ⟨[], ["https://gitlab.com/api/v4/projects/101/repository/compare?from=abc123d&to=master"]⟩ ∧
      (∃ fx, main compareNotFoundEnv "token" widgetArgs = .done () fx ∧
        fx.stdout = ["*Commit Messages*\n", "\n", "----------\n", "\n", "*JIRA Tickets*\n"]) ∧
      main (withStatus compareNotFoundEnv fun _ _ => 200) "token" widgetArgs =
        main compareNotFoundEnv "token" widgetArgs ∧
      getProjectId compareNotFoundEnv "token" "gadget" ⟨[], []⟩ =
        .abort (.fatal .decode)
          ⟨[], ["https://gitlab.com/api/v4/projects?simple=true&membership=true&search=gadget"]⟩ := by
  have h := status_not_inspected compareNotFoundEnv (fun _ _ => 200) "token"
  obtain ⟨fx, before, hrun, hout, hbefore⟩ := h.2.2.2.2.2.2.2.2.2.2 widgetArgs
    200 200 200 200 404 projectsBody projectsBody chartBody tagsBody notFoundBody
    [⟨101, "widget"⟩, ⟨202, "cd-widget"⟩] [⟨101, "widget"⟩, ⟨202, "cd-widget"⟩] 202 101
    ⟨"4.0.1"⟩ ⟨"widget_v4.0.1", ⟨"abc123d"⟩⟩ [] ⟨[]⟩
    rfl (by decide) (by decide) (by decide) rfl (by decide) (by decide) (by decide)
    rfl (by decide) (by decide) rfl (by decide) (by decide) rfl (by decide) (by decide)
  have hcompare := h.2.2.2.2.2.2.2.2.2.1 101 "abc123d" "master" ⟨[], []⟩ 404 notFoundBody ⟨[]⟩
    rfl (by decide) (by decide)
  have hsearch := h.2.2.2.2.2.1 "gadget" ⟨[], []⟩ 404 notFoundBody rfl (by decide) (by decide)
  refine ⟨hcompare.trans (by decide), ⟨fx, hrun, ?_⟩, h.2.2.2.2.1 widgetArgs,
    hsearch.trans (by decide)⟩
  rw [hout, hbefore rfl]
  decide

end DeployInfo
